import Mathlib

/-!
Verification of the `jvivard/intervoice` interview-preparation backend.

This file gives a shallow embedding of the response-parsing, validation and
workflow-orchestration code of the repository and proves (or refutes) the
specification claims about it.

Modelling conventions:

* Python strings are `List Char` (`Str` below); Python `str.find`, slicing
  (including negative end indices), `strip`, `split`, `lower`, `startswith`
  and the `in` operator are embedded by the `py…` functions, faithfully to
  CPython semantics for the inputs the code produces.
* Python values exchanged with `json` and the database are `PyVal`
  (`None`, booleans, integers, strings, lists, dicts as ordered
  association lists with unique keys, as Python preserves insertion order).
  Floats never occur in the verified code paths and are omitted.
* `json.loads` is an external library call; it is a parameter
  `loads : Str → Option PyVal`, where `Option.none` stands for
  `json.JSONDecodeError`.
* The one regular-expression fence match used in the fallback extractors
  is likewise an abstract parameter `Str → Option Str` giving the first
  captured group, since the claims under verification only depend on which
  string is subsequently parsed, never on the regex semantics itself.
* Network, database and clock effects (`requests.get`, Tavily/DuckDuckGo,
  Firestore, `time.time`, `secrets.choice`) are abstract parameters; an
  exception raised by such a call is an `Except.error` carrying the
  message string.  Python `try`/`except` becomes a `match` on the
  `Except` value, so a modelled function of result type `PyVal` (rather
  than `Except … PyVal`) is one whose every exception is provably caught.
-/

abbrev Str := List Char

/-- Python whitespace characters relevant to `str.strip` / `str.split`
(the code only processes ASCII text). -/
def isPyWs (c : Char) : Bool :=
  c = ' ' || c = '\t' || c = '\n' || c = '\x0b' || c = '\x0c' || c = '\r'

/-- Python `s.lstrip()`. -/
def pyLstrip (s : Str) : Str := s.dropWhile isPyWs

/-- Python `s.strip()`. -/
def pyStrip (s : Str) : Str :=
  ((s.dropWhile isPyWs).reverse.dropWhile isPyWs).reverse

/-- Python `s.lower()` (ASCII). -/
def pyLower (s : Str) : Str := s.map Char.toLower

/-- Python `s.startswith(p)`. -/
def pyStartsWith : Str → Str → Bool
  | _, [] => true
  | [], _ :: _ => false
  | c :: s, d :: p => c = d && pyStartsWith s p

/-- First index `i ≥ start` at which `pat` occurs in `s`
(Python `s.find(pat, start)`, `Option.none` for `-1`). -/
def pyFindFrom (s pat : Str) (start : Nat) : Option Nat :=
  (List.range (s.length + 1)).find? fun i =>
    decide (start ≤ i) && pyStartsWith (s.drop i) pat

/-- Python `s.find(pat)` as an `Int` (`-1` when absent). -/
def pyFindI (s pat : Str) : Int :=
  match pyFindFrom s pat 0 with
  | some i => (i : Int)
  | none => -1

/-- Python `s.find(pat, start)` as an `Int` (`-1` when absent). -/
def pyFindFromI (s pat : Str) (start : Nat) : Int :=
  match pyFindFrom s pat start with
  | some i => (i : Int)
  | none => -1

/-- Python `s.rfind(pat)` as an `Int` (`-1` when absent). -/
def pyRfindI (s pat : Str) : Int :=
  match (List.range (s.length + 1)).reverse.find? (fun i => pyStartsWith (s.drop i) pat) with
  | some i => (i : Int)
  | none => -1

/-- Python `pat in s`. -/
def pyContains (s pat : Str) : Bool := (pyFindFrom s pat 0).isSome

/-- Python slice `s[a:b]` for a non-negative start and a possibly negative
end index (as produced by `find` returning `-1`). -/
def pySliceNE (s : Str) (a : Nat) (b : Int) : Str :=
  let n := s.length
  let bEff : Nat := if b < 0 then ((n : Int) + b).toNat else min b.toNat n
  (s.drop a).take (bEff - a)

/-- Python `s.split('\n')`-style split at a separator character; always
returns at least one piece. -/
def pySplitChar (sep : Char) : Str → List Str
  | [] => [[]]
  | c :: s =>
    let rest := pySplitChar sep s
    if c = sep then [] :: rest
    else
      match rest with
      | [] => [[c]]
      | p :: ps => (c :: p) :: ps

/-- Python `s.split()` (split on whitespace runs, dropping empty pieces). -/
def pySplitWs : Str → List Str
  | [] => []
  | c :: s =>
    if isPyWs c then pySplitWs s
    else
      match pySplitWs s with
      | [] => [[c]]
      | p :: ps =>
        match s with
        | [] => [[c]]
        | d :: _ => if isPyWs d then [c] :: p :: ps else (c :: p) :: ps

/-- Python values as exchanged with `json.loads`/`json.dumps` and the
workflow: `None`, bools, ints, strings, lists, and insertion-ordered
dicts with string keys.  Floats are absent from the verified paths. -/
inductive PyVal where
  | pnone : PyVal
  | pbool : Bool → PyVal
  | pint : Int → PyVal
  | pstr : Str → PyVal
  | plist : List PyVal → PyVal
  | pdict : List (Str × PyVal) → PyVal

/-- Python `isinstance(v, dict)`. -/
def PyVal.isDict : PyVal → Bool
  | .pdict _ => true
  | _ => false

/-- Python `isinstance(v, list)`. -/
def PyVal.isList : PyVal → Bool
  | .plist _ => true
  | _ => false

/-- Python `isinstance(v, str)`. -/
def PyVal.isStr : PyVal → Bool
  | .pstr _ => true
  | _ => false

/-- Dict key membership, Python `k in d` for a dict `d`. -/
def kvHasKey (kvs : List (Str × PyVal)) (k : Str) : Bool :=
  kvs.any fun kv => kv.1 = k

/-- `k in v` for dict values (`false` on non-dicts; callers guard with
`isinstance` exactly as the Python code does). -/
def PyVal.hasKey (v : PyVal) (k : Str) : Bool :=
  match v with
  | .pdict kvs => kvHasKey kvs k
  | _ => false

/-- Lookup in an association list (first binding wins, as in a Python
dict, whose keys are unique). -/
def kvGet (kvs : List (Str × PyVal)) (k : Str) : Option PyVal :=
  match kvs.find? (fun kv => kv.1 = k) with
  | some kv => some kv.2
  | none => none

/-- Python `d.get(k, dflt)` for a dict `d` (callers only apply it to
dicts; the non-dict case never arises where this helper is used). -/
def PyVal.getD (v : PyVal) (k : Str) (dflt : PyVal) : PyVal :=
  match v with
  | .pdict kvs =>
    match kvGet kvs k with
    | some x => x
    | none => dflt
  | _ => dflt

/-- Python `d[k] = x`: update the binding in place when the key exists
(insertion order preserved), otherwise append it. -/
def kvSet (kvs : List (Str × PyVal)) (k : Str) (x : PyVal) : List (Str × PyVal) :=
  match kvs with
  | [] => [(k, x)]
  | (k0, v0) :: rest =>
    if k0 = k then (k0, x) :: rest else (k0, v0) :: kvSet rest k x

/-- Python `d[k] = x` on a `PyVal` known to be a dict. -/
def PyVal.setKey (v : PyVal) (k : Str) (x : PyVal) : PyVal :=
  match v with
  | .pdict kvs => .pdict (kvSet kvs k x)
  | _ => v

/-- Python truthiness (`bool(v)`). -/
def pyTruthy : PyVal → Bool
  | .pnone => false
  | .pbool b => b
  | .pint n => n ≠ 0
  | .pstr s => !s.isEmpty
  | .plist l => !l.isEmpty
  | .pdict kvs => !kvs.isEmpty

mutual

/-- Python `==` on the values handled here.  The numeric cross-type
equalities `True == 1` etc. are not modelled: the code only compares
resource-link values, which are strings or `None`. -/
def pyEq : PyVal → PyVal → Bool
  | .pnone, .pnone => true
  | .pbool a, .pbool b => a = b
  | .pint a, .pint b => a = b
  | .pstr a, .pstr b => a = b
  | .plist a, .plist b => pyEqL a b
  | .pdict a, .pdict b => pyEqKV a b
  | _, _ => false

def pyEqL : List PyVal → List PyVal → Bool
  | [], [] => true
  | x :: xs, y :: ys => pyEq x y && pyEqL xs ys
  | _, _ => false

def pyEqKV : List (Str × PyVal) → List (Str × PyVal) → Bool
  | [], [] => true
  | (k1, v1) :: xs, (k2, v2) :: ys => k1 = k2 && pyEq v1 v2 && pyEqKV xs ys
  | _, _ => false

end

/-- Decimal rendering of an integer, as Python `str(n)` / `json.dumps(n)`. -/
def intToStr (n : Int) : Str :=
  if n < 0 then '-' :: Nat.toDigits 10 n.natAbs else Nat.toDigits 10 n.natAbs

/-- Hexadecimal digit. -/
def hexDigit (n : Nat) : Char :=
  if n < 10 then Char.ofNat ('0'.toNat + n) else Char.ofNat ('a'.toNat + (n - 10))

/-- JSON string escaping as performed by `json.dumps` with
`ensure_ascii=False` (the setting used by the workflow). -/
def jsonEscapeChar (c : Char) : Str :=
  if c = '"' then ['\\', '"']
  else if c = '\\' then ['\\', '\\']
  else if c = '\n' then ['\\', 'n']
  else if c = '\t' then ['\\', 't']
  else if c = '\r' then ['\\', 'r']
  else if c.toNat < 0x20 then
    ['\\', 'u', '0', '0', hexDigit (c.toNat / 16), hexDigit (c.toNat % 16)]
  else [c]

def jsonQuote (s : Str) : Str :=
  '"' :: (s.flatMap jsonEscapeChar) ++ ['"']

/-- Comma-separated concatenation with Python's default `", "` separator. -/
def joinCommaSep : List Str → Str
  | [] => []
  | [x] => x
  | x :: y :: rest => x ++ [',', ' '] ++ joinCommaSep (y :: rest)

mutual

/-- `json.dumps(v, ensure_ascii=False)` with the default separators
`", "` and `": "`, as called by the workflow coordinator. -/
def pyDumps : PyVal → Str
  | .pnone => ('n' :: ['u', 'l', 'l'])
  | .pbool b => if b then ['t', 'r', 'u', 'e'] else ['f', 'a', 'l', 's', 'e']
  | .pint n => intToStr n
  | .pstr s => jsonQuote s
  | .plist xs => '[' :: joinCommaSep (pyDumpsL xs) ++ [']']
  | .pdict kvs => '\x7b' :: joinCommaSep (pyDumpsKV kvs) ++ ['\x7d']

def pyDumpsL : List PyVal → List Str
  | [] => []
  | x :: xs => pyDumps x :: pyDumpsL xs

def pyDumpsKV : List (Str × PyVal) → List Str
  | [] => []
  | (k, v) :: kvs => (jsonQuote k ++ [':', ' '] ++ pyDumps v) :: pyDumpsKV kvs

end

mutual

/-- Python `repr(v)` for the values handled here (string-escaping corner
cases inside `repr` of strings are not needed by any claim and the quoted
string is rendered verbatim between single quotes). -/
def pyRepr : PyVal → Str
  | .pnone => ['N', 'o', 'n', 'e']
  | .pbool b => if b then ['T', 'r', 'u', 'e'] else ['F', 'a', 'l', 's', 'e']
  | .pint n => intToStr n
  | .pstr s => '\'' :: s ++ ['\'']
  | .plist xs => '[' :: joinCommaSep (pyReprL xs) ++ [']']
  | .pdict kvs => '\x7b' :: joinCommaSep (pyReprKV kvs) ++ ['\x7d']

def pyReprL : List PyVal → List Str
  | [] => []
  | x :: xs => pyRepr x :: pyReprL xs

def pyReprKV : List (Str × PyVal) → List Str
  | [] => []
  | (k, v) :: kvs => (pyRepr (.pstr k) ++ [':', ' '] ++ pyRepr v) :: pyReprKV kvs

end

/-- Python `str(v)`, as used by f-string interpolation. -/
def pyStrOf : PyVal → Str
  | .pstr s => s
  | v => pyRepr v

/-! ### String and key constants used by the source -/

def fenceJsonTok : Str := "```json".data
def fenceTok : Str := "```".data
def braceOpenS : Str := ['\x7b']
def braceCloseS : Str := ['\x7d']
def brackOpenS : Str := ['[']
def brackCloseS : Str := [']']

def errorK : Str := "error".data
def rawResponseK : Str := "raw_response".data
def rawInputK : Str := "raw_input".data
def questionK : Str := "question".data
def answerK : Str := "answer".data
def tagsK : Str := "tags".data
def questionsK : Str := "questions".data
def resourcesK : Str := "resources".data
def linkK : Str := "link".data
def titleK : Str := "title".data
def messageK : Str := "message".data
def successK : Str := "success".data
def userIdK : Str := "user_id".data
def sessionIdK : Str := "session_id".data
def workflowIdK : Str := "workflow_id".data
def completedAgentsK : Str := "completed_agents".data
def personalSummaryK : Str := "personal_summary".data
def industryFaqsK : Str := "industry_faqs".data
def questionsDataK : Str := "questions_data".data
def finalAnswersK : Str := "final_answers".data
def answersK : Str := "answers".data
def executionTimeK : Str := "execution_time_seconds".data

/-! ### `ClaudeClient._extract_json` (src/backend/services/claude_client.py) -/

/-- The two `ValueError`s `_extract_json` can raise: "Could not extract
JSON from response" (no braces found) and "Invalid JSON in response"
(the selected substring failed to parse). -/
inductive ExtractErr where
  | couldNotExtract : ExtractErr
  | invalidJson : ExtractErr
deriving DecidableEq

/-- The substring selected by the ```` ```json ```` branch:
`text[text.find("```json")+7 : text.find("```", start)].strip()`
(a missing closing fence makes `find` return `-1`, so the Python slice
then drops the final character of `text`). -/
def fenceJsonContent (text : Str) : Str :=
  let start := (pyFindI text fenceJsonTok).toNat + 7
  pyStrip (pySliceNE text start (pyFindFromI text fenceTok start))

/-- The substring selected by the plain ```` ``` ```` branch. -/
def fenceContent (text : Str) : Str :=
  let start := (pyFindI text fenceTok).toNat + 3
  pyStrip (pySliceNE text start (pyFindFromI text fenceTok start))

/-- Whether a `{` … `}` span exists: `start != -1 and end > start` for
`start = text.find('{')` and `end = text.rfind('}') + 1`. -/
def braceSpanOk (text : Str) : Bool :=
  pyFindI text braceOpenS ≠ -1 && pyRfindI text braceCloseS + 1 > pyFindI text braceOpenS

/-- The substring `text[text.find('{') : text.rfind('}')+1]`. -/
def braceContent (text : Str) : Str :=
  pySliceNE text (pyFindI text braceOpenS).toNat (pyRfindI text braceCloseS + 1)

/-- `ClaudeClient._extract_json` (claude_client.py lines 231-269), with
`json.loads` abstract: direct parse, then markdown fence extraction
(preferring a ```` ```json ```` fence), then first-`{`-to-last-`}`
extraction, raising `ValueError` when nothing parses. -/
def extract_json (loads : Str → Option PyVal) (text : Str) : Except ExtractErr PyVal :=
  match loads text with
  | some v => .ok v
  | none =>
    if pyContains text fenceJsonTok then
      match loads (fenceJsonContent text) with
      | some v => .ok v
      | none => .error .invalidJson
    else if pyContains text fenceTok then
      match loads (fenceContent text) with
      | some v => .ok v
      | none => .error .invalidJson
    else
      if braceSpanOk text then
        match loads (braceContent text) with
        | some v => .ok v
        | none => .error .invalidJson
      else .error .couldNotExtract

/-! ### Fallback extractors of the preparation agents

Each agent's `_extract_json_fallback` first tries the markdown-fence
regex (abstracted as `ff`, the first captured group), then a direct
`json.loads`, then bracket/brace substring extraction, and finally
returns an `{"error": …, "raw_response": …}` dict instead of raising. -/

/-- The error dict `{"error": f"Error parsing response: {e}",
"raw_response": response_text}` returned by every fallback extractor.
The embedded exception text is irrelevant to every claim and is kept
abstract as `msg`. -/
def parseErrDict (msg : Str) (responseText : Str) : PyVal :=
  .pdict [(errorK, .pstr ("Error parsing response: ".data ++ msg)),
          (rawResponseK, .pstr responseText)]

/-- Message of the `ValueError` raised when no JSON-like span is found. -/
def couldNotFindMsg : Str := "Could not find valid JSON in the response".data

/-- Placeholder for the `json.JSONDecodeError` message produced by the
external parser (its text matters to no claim). -/
def jsonDecodeMsg : Str := "JSONDecodeError".data

/-- `_extract_json_fallback` of the summarizer and search agents
(summarizer/agent_claude.py lines 103-132, search/agent_claude.py lines
191-220): fence match or direct parse, then `{`…`}` extraction, and an
error dict when everything fails. -/
def dictExtractJsonFallback (ff : Str → Option Str) (loads : Str → Option PyVal)
    (responseText : Str) : PyVal :=
  let attempt1 :=
    match ff responseText with
    | some m => loads (pyStrip m)
    | none => loads responseText
  match attempt1 with
  | some v => v
  | none =>
    let s := pyFindI responseText braceOpenS
    let e := pyRfindI responseText braceCloseS + 1
    if s ≥ 0 ∧ e > s then
      match loads (pySliceNE responseText s.toNat e) with
      | some v => v
      | none => parseErrDict jsonDecodeMsg responseText
    else parseErrDict couldNotFindMsg responseText

/-- `questions` unwrapping done by the question generator after parsing
(question_generator/agent_claude.py lines 99-101 and 166-167). -/
def unwrapQuestions (v : PyVal) : PyVal :=
  if v.isDict && v.hasKey questionsK then v.getD questionsK v else v

/-- `_extract_json_fallback` of the question generator
(question_generator/agent_claude.py lines 127-169): fence match or
direct parse, then `[`…`]` extraction, then `{`…`}` extraction, an error
dict when everything fails, and finally `questions` unwrapping. -/
def qgenExtractJsonFallback (ff : Str → Option Str) (loads : Str → Option PyVal)
    (responseText : Str) : PyVal :=
  let attempt1 :=
    match ff responseText with
    | some m => loads (pyStrip m)
    | none => loads responseText
  let result :=
    match attempt1 with
    | some v => v
    | none =>
      let sa := pyFindI responseText brackOpenS
      let ea := pyRfindI responseText brackCloseS + 1
      if sa ≥ 0 ∧ ea > sa then
        match loads (pySliceNE responseText sa.toNat ea) with
        | some v => v
        | none => parseErrDict jsonDecodeMsg responseText
      else
        let s := pyFindI responseText braceOpenS
        let e := pyRfindI responseText braceCloseS + 1
        if s ≥ 0 ∧ e > s then
          match loads (pySliceNE responseText s.toNat e) with
          | some v => v
          | none => parseErrDict jsonDecodeMsg responseText
        else parseErrDict couldNotFindMsg responseText
  unwrapQuestions result

/-! ### Answer generator validation (answer_generator/agent_claude.py) -/

/-- Normalisation of the `tags` of the `i`-th input question (lines
191-202 and 283-294): default `[]`, a string becomes a one-element list,
any other non-list becomes `[]`; an index past the question list or a
non-dict question yields `[]`. -/
def normTags (questionsList : List PyVal) (i : Nat) : PyVal :=
  match questionsList.drop i with
  | [] => .plist []
  | q :: _ =>
    match q with
    | .pdict kvs =>
      match (PyVal.pdict kvs).getD tagsK (.plist []) with
      | .plist l => .plist l
      | .pstr s => .plist [.pstr s]
      | _ => .plist []
    | _ => .plist []

/-- The validated item built for a model item (lines 204-209 / 296-301):
`question` and `answer` from the model item with `""` default, `tags`
replaced by the normalised original tags. -/
def mkValidatedItem (item : PyVal) (tags : PyVal) : PyVal :=
  .pdict [(questionK, item.getD questionK (.pstr [])),
          (answerK, item.getD answerK (.pstr [])),
          (tagsK, tags)]

/-- The `for i, item in enumerate(result)` validation loop (lines
188-211 / 280-303): non-dict items are skipped, dict items are rebuilt
with the original question's tags. -/
def validateAnswersFrom (questionsList : List PyVal) : Nat → List PyVal → List PyVal
  | _, [] => []
  | i, item :: rest =>
    match item with
    | .pdict kvs =>
      mkValidatedItem (.pdict kvs) (normTags questionsList i) ::
        validateAnswersFrom questionsList (i + 1) rest
    | _ => validateAnswersFrom questionsList (i + 1) rest

def validateAnswers (result questionsList : List PyVal) : List PyVal :=
  validateAnswersFrom questionsList 0 result

/-- Post-parse step shared by both answer-generator paths: a list result
is validated element-wise, anything else is passed through. -/
def answerPostProcess (questionsList : List PyVal) (v : PyVal) : PyVal :=
  match v with
  | .plist items => .plist (validateAnswers items questionsList)
  | _ => v

/-- The parsing stage of the answer generator's
`_extract_json_fallback` (lines 243-275): fence match or direct parse,
then `[`…`]`, then `{`…`}` extraction, and an error dict when everything
fails.  (When the stage produces the error dict the Python code returns
it directly; since the validation step passes every non-list through
unchanged, composing the two stages is extensionally the same.) -/
def answerFallbackParse (ff : Str → Option Str) (loads : Str → Option PyVal)
    (responseText : Str) : PyVal :=
  let attempt1 :=
    match ff responseText with
    | some m => loads (pyStrip m)
    | none => loads responseText
  match attempt1 with
  | some v => v
  | none =>
    let sa := pyFindI responseText brackOpenS
    let ea := pyRfindI responseText brackCloseS + 1
    if sa ≥ 0 ∧ ea > sa then
      match loads (pySliceNE responseText sa.toNat ea) with
      | some v => v
      | none => parseErrDict jsonDecodeMsg responseText
    else
      let s := pyFindI responseText braceOpenS
      let e := pyRfindI responseText braceCloseS + 1
      if s ≥ 0 ∧ e > s then
        match loads (pySliceNE responseText s.toNat e) with
        | some v => v
        | none => parseErrDict jsonDecodeMsg responseText
      else parseErrDict couldNotFindMsg responseText

/-- `_extract_json_fallback` of the answer generator (lines 240-307):
the parsing stage, then the tag-preserving validation (lines 277-305),
identical to the validation on the primary path. -/
def answerExtractJsonFallback (ff : Str → Option Str) (loads : Str → Option PyVal)
    (responseText : Str) (questionsList : List PyVal) : PyVal :=
  answerPostProcess questionsList (answerFallbackParse ff loads responseText)

/-! ### Agent control flow

An agent makes a primary `generate_json` attempt (a `generate` call that
may raise, followed by `_extract_json`, which may raise `ValueError`),
and on any exception retries with a plain `generate` call followed by
its own `_extract_json_fallback`; if that second call also raises, it
returns an `{"error": …, "raw_response": …}` dict.  The outcomes of the
two network calls are the `Except` parameters `c1`/`c2` (`Except.error`
carrying the exception's message string). -/

/-- The primary `client.generate_json` attempt: API call then
`ClaudeClient._extract_json`. -/
def generateJsonAttempt (loads : Str → Option PyVal) (c1 : Except Str Str) :
    Except Str PyVal :=
  match c1 with
  | .error e => .error e
  | .ok text =>
    match extract_json loads text with
    | .ok v => .ok v
    | .error _ => .error "ValueError".data

/-- The final error dict of agent `name`:
`{"error": f"Error in Claude {name}: {e2}", "raw_response": str(e2)}`. -/
def agentErrDict (agentPre : Str) (e2 : Str) : PyVal :=
  .pdict [(errorK, .pstr (agentPre ++ e2)), (rawResponseK, .pstr e2)]

def summarizerPre : Str := "Error in Claude summarizer: ".data
def searchPre : Str := "Error in Claude search agent: ".data
def qgenPre : Str := "Error in Claude question generator: ".data
def agenPre : Str := "Error in Claude answer generator: ".data
def judgePre : Str := "Error in Claude judge agent: ".data

/-- `_run_summarizer_claude` (summarizer/agent_claude.py lines 42-100),
from the primary attempt onward (prompt construction does not affect the
returned structure). -/
def summarizerRun (loads : Str → Option PyVal) (ff : Str → Option Str)
    (c1 c2 : Except Str Str) : PyVal :=
  match generateJsonAttempt loads c1 with
  | .ok v => v
  | .error _ =>
    match c2 with
    | .ok text => dictExtractJsonFallback ff loads text
    | .error e2 => agentErrDict summarizerPre e2

/-- `_run_searcher_claude` (search/agent_claude.py lines 95-164), from
the primary attempt onward (the web-search phase only contributes prompt
text). -/
def searchRun (loads : Str → Option PyVal) (ff : Str → Option Str)
    (c1 c2 : Except Str Str) : PyVal :=
  match generateJsonAttempt loads c1 with
  | .ok v => v
  | .error _ =>
    match c2 with
    | .ok text => dictExtractJsonFallback ff loads text
    | .error e2 => agentErrDict searchPre e2

/-- `_run_question_generator_claude` (question_generator/agent_claude.py
lines 39-124), from the primary attempt onward. -/
def questionGeneratorRun (loads : Str → Option PyVal) (ff : Str → Option Str)
    (c1 c2 : Except Str Str) : PyVal :=
  match generateJsonAttempt loads c1 with
  | .ok v => unwrapQuestions v
  | .error _ =>
    match c2 with
    | .ok text => qgenExtractJsonFallback ff loads text
    | .error e2 => agentErrDict qgenPre e2

/-- Extraction of the question list from `questions_data`
(answer_generator/agent_claude.py lines 127-141).  The key loop takes
the first of the four keys whose value is a list (a present but
non-list value falls through to the next key); afterwards the
single-question recheck `if not questions_list and all(k in
questions_data for k in ['question'])` runs whenever the loop produced
an *empty* list — including the case where a matched key held `[]` —
and re-admits the whole dict as `[questions_data]`. -/
def extractQuestionsList (questionsData : PyVal) : List PyVal :=
  match questionsData with
  | .plist l => l
  | .pdict kvs =>
    let d := PyVal.pdict kvs
    let fromKeys : List PyVal :=
      match kvGet kvs questionsK with
      | some (.plist l) => l
      | _ =>
        match kvGet kvs ("customized_questions".data) with
        | some (.plist l) => l
        | _ =>
          match kvGet kvs ("interview_questions".data) with
          | some (.plist l) => l
          | _ =>
            match kvGet kvs ("data".data) with
            | some (.plist l) => l
            | _ => []
    if fromKeys.isEmpty && d.hasKey questionK then [d] else fromKeys
  | _ => []

/-- The error dict returned when no questions are found (lines 142-146). -/
def noQuestionsErrDict (questionsData : PyVal) : PyVal :=
  .pdict [(errorK, .pstr ("No valid questions found in input data".data)),
          (rawInputK, questionsData)]

/-- `_run_answer_generator_claude` (answer_generator/agent_claude.py
lines 113-237): question-list extraction, primary attempt with
tag-preserving validation, fallback extraction with the same validation,
error dict as last resort. -/
def answerGeneratorRun (loads : Str → Option PyVal) (ff : Str → Option Str)
    (questionsData : PyVal) (c1 c2 : Except Str Str) : PyVal :=
  let questionsList := extractQuestionsList questionsData
  if questionsList.isEmpty then noQuestionsErrDict questionsData
  else
    match generateJsonAttempt loads c1 with
    | .ok v => answerPostProcess questionsList v
    | .error _ =>
      match c2 with
      | .ok text => answerExtractJsonFallback ff loads text questionsList
      | .error e2 => agentErrDict agenPre e2

/-! ### Interview judge (interview_judge/agent_claude.py) -/

/-- An HTTP response as seen by `is_valid_and_reachable_url`: status
code and body text.  A raised exception (timeout, invalid URL, non-string
argument, …) is modelled as the fetch returning `Option.none`. -/
structure UrlResp where
  status : Nat
  body : Str

/-- `is_valid_and_reachable_url` (lines 211-224) applied to the abstract
fetch outcome: `False` on exception, on status `>= 400`, when the
lowercased body contains `"404"`, `"page not found"` or
`"not available"`, or when the body has fewer than 500 characters. -/
def is_valid_and_reachable_url (resp : Option UrlResp) : Bool :=
  match resp with
  | none => false
  | some r =>
    if r.status ≥ 400 then false
    else
      let content := pyLower r.body
      if pyContains content ("404".data) ||
         pyContains content ("page not found".data) ||
         pyContains content ("not available".data) then false
      else if content.length < 500 then false
      else true

/-- `resource.get("link")` (default `None`) of a resource dict. -/
def linkOf : PyVal → PyVal
  | .pdict kvs =>
    match kvGet kvs linkK with
    | some x => x
    | none => .pnone
  | _ => .pnone

/-- One step of the `deduplicate_resources` loop (lines 232-236): keep
the resource when its `link` is truthy and not yet seen.  Python set
membership is `pyEq`-based; adding an unhashable (list/dict) link raises
`TypeError`, modelled as `Except.error`. -/
def dedupLoop (seen : List PyVal) : List PyVal → Except Str (List PyVal)
  | [] => .ok []
  | r :: rest =>
    match r with
    | .pdict kvs =>
      let link := linkOf (.pdict kvs)
      if pyTruthy link then
        if link.isList || link.isDict then .error ("unhashable type".data)
        else if seen.any (fun s => pyEq s link) then dedupLoop seen rest
        else
          match dedupLoop (link :: seen) rest with
          | .ok kept => .ok (r :: kept)
          | .error e => .error e
      else dedupLoop seen rest
    | _ => .error ("AttributeError: get".data)

/-- `deduplicate_resources` (lines 227-239): filter the `resources` list
down to first occurrences of each truthy link, then store the filtered
list back under `"resources"`.  A non-dict feedback value or a non-list
`resources` value would raise in Python, modelled as `Except.error`. -/
def deduplicate_resources (feedback : PyVal) : Except Str PyVal :=
  match feedback with
  | .pdict kvs =>
    match (PyVal.pdict kvs).getD resourcesK (.plist []) with
    | .plist rs =>
      match dedupLoop [] rs with
      | .ok kept => .ok (PyVal.pdict (kvSet kvs resourcesK (.plist kept)))
      | .error e => .error e
    | _ => .error ("TypeError: not iterable".data)
  | _ => .error ("AttributeError: get".data)

/-- Status of `parse_and_validate_feedback` (lines 167-192). -/
inductive FeedbackStatus where
  | valid : PyVal → FeedbackStatus
  | invalid : FeedbackStatus
  | errorS : FeedbackStatus

/-- `parse_and_validate_feedback`: fence match (abstract regex `ff`,
first group) or raw text, a brace-substring retry when the stripped
candidate does not start with `{`, then `json.loads` and schema
validation (`Feedback.model_validate`, abstract `validate`); parse
failure gives status `"error"`, validation failure `"invalid"`. -/
def parse_and_validate_feedback (ff : Str → Option Str) (loads : Str → Option PyVal)
    (validate : PyVal → Bool) (responseText : Str) : FeedbackStatus :=
  let jsonStr :=
    match ff responseText with
    | some g => pyStrip g
    | none => responseText
  let jsonStr :=
    if pyStartsWith (pyStrip jsonStr) braceOpenS then jsonStr
    else
      let s := pyFindI responseText braceOpenS
      let e := pyRfindI responseText braceCloseS + 1
      if s ≥ 0 ∧ e > s then pySliceNE responseText s.toNat e else jsonStr
  match loads jsonStr with
  | none => .errorS
  | some parsed => if validate parsed then .valid parsed else .invalid

/-- Effect environment of the judge: the model call, the regex/parse/
validation abstractions, the URL fetch used by
`is_valid_and_reachable_url`, the DuckDuckGo regeneration result, and
the Firestore save outcome. -/
structure JudgeEnv where
  call : Except Str Str
  ff : Str → Option Str
  loads : Str → Option PyVal
  validate : PyVal → Bool
  fetch : PyVal → Option UrlResp
  ddg : PyVal → PyVal
  save : PyVal → Except Str PyVal

/-- The link-fixing loop over one resource (lines 128-134): an
unreachable link is replaced by the DuckDuckGo result's `title` and
`link` (a `KeyError` on a malformed search result, or an `AttributeError`
on a non-dict resource, propagates). -/
def fixResource (env : JudgeEnv) (r : PyVal) : Except Str PyVal :=
  match r with
  | .pdict kvs =>
    let d := PyVal.pdict kvs
    let link := d.getD linkK (.pstr [])
    if is_valid_and_reachable_url (env.fetch link) then .ok d
    else
      let nr := env.ddg (d.getD titleK (.pstr ("interview tips".data)))
      match nr with
      | .pdict nkvs =>
        match kvGet nkvs titleK, kvGet nkvs linkK with
        | some t, some l => .ok ((d.setKey titleK t).setKey linkK l)
        | _, _ => .error ("KeyError".data)
      | _ => .error ("TypeError: not subscriptable".data)
  | _ => .error ("AttributeError: get".data)

def fixResourcesList (env : JudgeEnv) : List PyVal → Except Str (List PyVal)
  | [] => .ok []
  | r :: rest =>
    match fixResource env r with
    | .error e => .error e
    | .ok r' =>
      match fixResourcesList env rest with
      | .ok rest' => .ok (r' :: rest')
      | .error e => .error e

/-- The in-place mutation of `feedback_json`'s resources by the fixing
loop: when the dict has a list under `"resources"` the fixed list
replaces it; a missing key iterates over the `.get` default `[]` and
leaves the dict unchanged; anything else raises. -/
def fixResources (env : JudgeEnv) (fb : PyVal) : Except Str PyVal :=
  match fb with
  | .pdict kvs =>
    if kvHasKey kvs resourcesK then
      match kvGet kvs resourcesK with
      | some (.plist rs) =>
        match fixResourcesList env rs with
        | .ok rs' => .ok (PyVal.pdict (kvSet kvs resourcesK (.plist rs')))
        | .error e => .error e
      | _ => .error ("TypeError: not iterable".data)
    else .ok (PyVal.pdict kvs)
  | _ => .error ("AttributeError: get".data)

/-- The body of `_run_judge_from_session_claude`'s `try` block (lines
104-147): call the model, parse and validate, fix links, deduplicate,
save, and return the feedback — or `None` when the status is not
`"valid"`. -/
def judgeBody (env : JudgeEnv) : Except Str PyVal :=
  match env.call with
  | .error e => .error e
  | .ok responseText =>
    match parse_and_validate_feedback env.ff env.loads env.validate responseText with
    | .valid parsed =>
      match fixResources env parsed with
      | .error e => .error e
      | .ok fixed =>
        match deduplicate_resources fixed with
        | .error e => .error e
        | .ok deduped =>
          match env.save deduped with
          | .error e => .error e
          | .ok saveResult =>
            match saveResult with
            | .pdict _ => .ok deduped
            | _ => .error ("AttributeError: get".data)
    | _ => .ok .pnone

/-- `_run_judge_from_session_claude` (lines 94-164): every exception of
the body is caught and turned into an error dict (the `finally` block
swallows its own exceptions and does not affect the returned value). -/
def judgeRun (env : JudgeEnv) : PyVal :=
  match judgeBody env with
  | .ok v => v
  | .error e => .pdict [(errorK, .pstr (judgePre ++ e))]

/-! ### `_extract_job_title` (search/agent_claude.py lines 167-188) -/

def titleMarkers : List Str :=
  ["Position:".data, "Job Title:".data, "Role:".data, "Title:".data]

/-- The sequential marker-stripping loop: `for prefix in [...]: if
line.startswith(prefix): line = line[len(prefix):].strip()` — each
marker is tested against the line as rewritten so far. -/
def stripTitleMarkers (line : Str) : Str :=
  titleMarkers.foldl
    (fun l p => if pyStartsWith l p then pyStrip (l.drop p.length) else l) line

/-- One iteration of the title-candidate loop: strip the line, skip it
when empty or starting with `#`, strip the markers, and accept when the
result has fewer than 100 characters and fewer than 10 words. -/
def titleCandidate (line0 : Str) : Option Str :=
  let line := pyStrip line0
  if line.isEmpty then none
  else if pyStartsWith line ("#".data) then none
  else
    let line := stripTitleMarkers line
    if line.length < 100 ∧ (pySplitWs line).length < 10 then some line else none

def titleLoop : List Str → Option Str
  | [] => none
  | l :: ls =>
    match titleCandidate l with
    | some t => some t
    | none => titleLoop ls

def unknownPositionStr : Str := "Unknown Position".data

/-- `_extract_job_title`: split the stripped description into lines,
scan the first five for a title candidate, else fall back to the first
line (`"Unknown Position"` only if the line list were empty). -/
def extract_job_title (jobDescription : Str) : Str :=
  match titleLoop ((pySplitChar '\n' (pyStrip jobDescription)).take 5) with
  | some t => t
  | none =>
    match pySplitChar '\n' (pyStrip jobDescription) with
    | [] => unknownPositionStr
    | l0 :: _ => l0

/-! ### `generate_session_id` (preparation_workflow_claude.py lines 32-36) -/

def asciiLetters : Str :=
  "abcdefghijklmnopqrstuvwxyzABCDEFGHIJKLMNOPQRSTUVWXYZ".data

def asciiDigits : Str := "0123456789".data

/-- `string.ascii_letters + string.digits`. -/
def sessionAlphabet : Str := asciiLetters ++ asciiDigits

/-- `generate_session_id`: twenty independent `secrets.choice` draws
from the alphabet, joined.  The randomness is the function `draws`
giving the index chosen at each of the twenty positions; the
`input_data` argument is accepted and ignored, exactly as in the
source. -/
def generate_session_id (inputData : Str)
    (draws : Fin 20 → Fin sessionAlphabet.length) : Str :=
  (List.finRange 20).map fun k => sessionAlphabet.get (draws k)

/-! ### `run_preparation_workflow` (preparation_workflow_claude.py lines 39-195) -/

/-- The four preparation agents, in the order the workflow invokes them. -/
inductive AgentTag where
  | summarizer : AgentTag
  | search : AgentTag
  | questionGenerator : AgentTag
  | answerGenerator : AgentTag
deriving DecidableEq

def allAgents : List AgentTag :=
  [.summarizer, .search, .questionGenerator, .answerGenerator]

/-- Outcomes of the workflow's effectful steps: the generated session id
(from `generate_session_id`), the result of each of the four agent calls
(`Except.error` when the awaited call raises, carrying `str(e)`), and
the measured execution time (opaque to every claim). -/
structure WfEnv where
  gen : Str
  summ : Except Str PyVal
  search : Except Str PyVal
  qgen : Except Str PyVal
  agen : Except Str PyVal
  timeVal : PyVal

/-- `isinstance(r, dict) and "error" in r`. -/
def errDictP (v : PyVal) : Bool := v.isDict && v.hasKey errorK

/-- The `except` clause's return value (lines 189-195): at every raise
point of the model `session_id` and `workflow_id` are already
established, so `session_id if session_id else None` is the established
id unless it is the empty string, and `workflow_id` is in `locals()`. -/
def wfFail (msg : Str) (userId sid : Str) : PyVal :=
  .pdict [(successK, .pbool false),
          (errorK, .pstr msg),
          (userIdK, .pstr userId),
          (sessionIdK, if sid.isEmpty then .pnone else .pstr sid),
          (workflowIdK, .pstr sid)]

/-- The messages of the exceptions the workflow itself raises when an
agent returns an error dict (lines 116, 148, 165). -/
def summErrRaise (ps : PyVal) : Str :=
  "Summarizer error: ".data ++ pyStrOf (ps.getD errorK .pnone)

def qgenErrRaise (qd : PyVal) : Str :=
  "Question generator error: ".data ++ pyStrOf (qd.getD errorK .pnone)

def agenErrRaise (ar : PyVal) : Str :=
  "Answer generator error: ".data ++ pyStrOf (ar.getD errorK .pnone)

/-- Message of the `AttributeError` raised by
`answers_result.get("answers", [])` when the answer step yields a
non-dict (line 182). -/
def attrGetMsg : Str := "AttributeError: get".data

/-- The success dictionary (lines 173-184). -/
def wfSuccess (userId sid : Str) (ps faqs qd ar : PyVal) (timeVal : PyVal) : PyVal :=
  .pdict [(successK, .pbool true),
          (userIdK, .pstr userId),
          (sessionIdK, .pstr sid),
          (workflowIdK, .pstr sid),
          (completedAgentsK, .plist [.pstr ("summarizer".data),
                                     .pstr ("search".data),
                                     .pstr ("question_generator".data),
                                     .pstr ("answer_generator".data)]),
          (personalSummaryK, .pstr (pyDumps ps)),
          (industryFaqsK, .pstr (pyDumps faqs)),
          (questionsDataK, .pstr (pyDumps qd)),
          (finalAnswersK, .pstr (pyDumps (ar.getD answersK (.plist [])))),
          (executionTimeK, timeVal)]

/-- The established session id: the caller's argument when truthy,
otherwise the freshly generated one (lines 69-71; `not session_id` is
true for both `None` and `""`). -/
def wfSessionId (sessionIdArg : Option Str) (env : WfEnv) : Str :=
  match sessionIdArg with
  | none => env.gen
  | some s => if s.isEmpty then env.gen else s

/-- `run_preparation_workflow` (lines 39-195).  The GitHub/portfolio
steps and `_save_personal_experience_to_database` catch all their own
exceptions and do not influence the returned dictionary, so they do not
appear.  The second component is the trace of agent invocations, in
order: an agent is recorded exactly when its awaited call is reached. -/
def run_preparation_workflow (userId : Str) (sessionIdArg : Option Str)
    (env : WfEnv) : PyVal × List AgentTag :=
  let sid := wfSessionId sessionIdArg env
  match env.summ with
  | .error e => (wfFail e userId sid, [.summarizer])
  | .ok ps =>
    if errDictP ps then (wfFail (summErrRaise ps) userId sid, [.summarizer])
    else
      match env.search with
      | .error e => (wfFail e userId sid, [.summarizer, .search])
      | .ok faqs0 =>
        let faqs := if errDictP faqs0 then PyVal.pdict [] else faqs0
        match env.qgen with
        | .error e =>
          (wfFail e userId sid, [.summarizer, .search, .questionGenerator])
        | .ok qd =>
          if errDictP qd then
            (wfFail (qgenErrRaise qd) userId sid,
             [.summarizer, .search, .questionGenerator])
          else
            match env.agen with
            | .error e => (wfFail e userId sid, allAgents)
            | .ok ar =>
              if errDictP ar then (wfFail (agenErrRaise ar) userId sid, allAgents)
              else
                match ar with
                | .pdict _ =>
                  (wfSuccess userId sid ps faqs qd ar env.timeVal, allAgents)
                | _ => (wfFail attrGetMsg userId sid, allAgents)

/-! ### Pure form of the dedup loop and concrete test inputs -/

/-- The pure value computed by `dedupLoop` when no resource raises:
keep a resource when its link is truthy and not yet in `seen`, adding
kept links to `seen`. -/
def keepFirstLinks (seen : List PyVal) : List PyVal → List PyVal
  | [] => []
  | r :: rest =>
    let link := linkOf r
    if pyTruthy link && !(seen.any fun s => pyEq s link) then
      r :: keepFirstLinks (link :: seen) rest
    else keepFirstLinks seen rest

/-- Concrete `json.loads` fragment: maps `"OK"` to the integer `7`. -/
def c1Loads : Str → Option PyVal :=
  fun s => if s = ("OK".data) then some (.pint 7) else none

/-- A reply that is not clean JSON but carries a ```` ```json ```` fence. -/
def c1Text : Str := "```json\nOK\n```".data

/-- Judge environment for the C2 counterexample: the model reply `"x"`
is not clean JSON (`loads` rejects everything), so parsing fails. -/
def c2jEnv : JudgeEnv where
  call := .ok ("x".data)
  ff := fun _ => none
  loads := fun _ => none
  validate := fun _ => false
  fetch := fun _ => none
  ddg := fun _ => .pnone
  save := fun _ => .ok (.pdict [])

/-- `json.loads` fragment recognising only the JSON text `null`. -/
def c2sLoads : Str → Option PyVal :=
  fun s => if s = ("null".data) then some .pnone else none

/-- Primary reply for the C2 counterexample: not clean JSON, no fence,
no braces. -/
def c2sRep1 : Str := "no json here".data

/-- Fallback reply for the C2 counterexample: a fenced `null`. -/
def c2sRep2 : Str := "```null```".data

/-- Fence regex outcome for the C2 counterexample: the fenced group of
`c2sRep2` is `null`. -/
def c2sFf : Str → Option Str :=
  fun s => if s = c2sRep2 then some ("null".data) else none

/-- Questions input for the C3 counterexample: two tagged questions. -/
def c3Qd : PyVal :=
  .plist [.pdict [(questionK, .pstr ("q0".data)), (tagsK, .pstr ("a".data))],
          .pdict [(questionK, .pstr ("q1".data)), (tagsK, .pstr ("b".data))]]

/-- Model reply for the C3 counterexample: a list whose first item is a
bare string and whose second is a dict. -/
def c3Reply : Str := "R".data

def c3ModelList : List PyVal :=
  [.pstr ("junk".data),
   .pdict [(questionK, .pstr ("q1".data)), (answerK, .pstr ("ans".data))]]

def c3Loads : Str → Option PyVal :=
  fun s => if s = c3Reply then some (.plist c3ModelList) else none

/-- Lists for the C3 witness: all model items are dicts. -/
def c3WRes : List PyVal :=
  [.pdict [(questionK, .pstr ("q0".data)), (answerK, .pstr ("a0".data)),
           (tagsK, .pstr ("model-tag".data))]]

def c3WQs : List PyVal :=
  [.pdict [(questionK, .pstr ("q0".data)), (tagsK, .pstr ("orig".data))]]

/-- All-success workflow environment for the C4 witness. -/
def c4Env : WfEnv where
  gen := "S".data
  summ := .ok (.pdict [(titleK, .pstr ("T".data))])
  search := .ok (.pdict [])
  qgen := .ok (.plist [])
  agen := .ok (.pdict [(answersK, .plist [])])
  timeVal := .pint 0

/-- Workflow environment for the C5 witness: the summarizer returns an
error dict. -/
def c5Env : WfEnv where
  gen := "S".data
  summ := .ok (.pdict [(errorK, .pstr ("boom".data))])
  search := .ok (.pdict [])
  qgen := .ok (.plist [])
  agen := .ok (.pdict [])
  timeVal := .pint 0

/-- Feedback dict for the C6 witness: duplicate and falsy links. -/
def c6Kvs : List (Str × PyVal) :=
  [(titleK, .pstr ("fb".data)),
   (resourcesK, .plist
     [.pdict [(titleK, .pstr ("r1".data)), (linkK, .pstr ("u1".data))],
      .pdict [(titleK, .pstr ("r2".data)), (linkK, .pstr ("u1".data))],
      .pdict [(titleK, .pstr ("r3".data))],
      .pdict [(titleK, .pstr ("r4".data)), (linkK, .pstr [])],
      .pdict [(titleK, .pstr ("r5".data)), (linkK, .pstr ("u2".data))]])]

def c6Rs : List PyVal :=
  [.pdict [(titleK, .pstr ("r1".data)), (linkK, .pstr ("u1".data))],
   .pdict [(titleK, .pstr ("r2".data)), (linkK, .pstr ("u1".data))],
   .pdict [(titleK, .pstr ("r3".data))],
   .pdict [(titleK, .pstr ("r4".data)), (linkK, .pstr [])],
   .pdict [(titleK, .pstr ("r5".data)), (linkK, .pstr ("u2".data))]]

/-- Workflow environment for the C8 witness: the search agent returns an
error dict, everything else succeeds. -/
def c8Env : WfEnv where
  gen := "S".data
  summ := .ok (.pdict [(titleK, .pstr ("T".data))])
  search := .ok (.pdict [(errorK, .pstr ("search down".data))])
  qgen := .ok (.plist [])
  agen := .ok (.pdict [(answersK, .plist [])])
  timeVal := .pint 0

/-- A fetch outcome for the C7 witness: status 500. -/
def c7Resp : Option UrlResp := some ⟨500, []⟩

/-! ## Shared lemmas -/

mutual

theorem pyEq_iff : ∀ a b : PyVal, pyEq a b = true ↔ a = b
  | .pnone, b => by cases b <;> simp [pyEq]
  | .pbool x, b => by cases b <;> simp [pyEq]
  | .pint x, b => by cases b <;> simp [pyEq]
  | .pstr s, b => by cases b <;> simp [pyEq]
  | .plist xs, b => by
    cases b <;> simp [pyEq]
    exact pyEqL_iff xs _
  | .pdict kvs, b => by
    cases b <;> simp [pyEq]
    exact pyEqKV_iff kvs _

theorem pyEqL_iff : ∀ xs ys : List PyVal, pyEqL xs ys = true ↔ xs = ys
  | [], ys => by cases ys <;> simp [pyEqL]
  | x :: xs, ys => by
    cases ys with
    | nil => simp [pyEqL]
    | cons y ys => simp [pyEqL, pyEq_iff x y, pyEqL_iff xs ys]

theorem pyEqKV_iff : ∀ xs ys : List (Str × PyVal), pyEqKV xs ys = true ↔ xs = ys
  | [], ys => by cases ys <;> simp [pyEqKV]
  | (k1, v1) :: xs, ys => by
    cases ys with
    | nil => simp [pyEqKV]
    | cons y ys =>
      obtain ⟨k2, v2⟩ := y
      simp [pyEqKV, pyEq_iff v1 v2, pyEqKV_iff xs ys]

end

theorem pyEq_refl (a : PyVal) : pyEq a a = true := (pyEq_iff a a).2 rfl

theorem kvGet_kvSet_self (kvs : List (Str × PyVal)) (k : Str) (x : PyVal) :
    kvGet (kvSet kvs k x) k = some x := by
  induction kvs with
  | nil => simp [kvSet, kvGet]
  | cons kv rest ih =>
    obtain ⟨k0, v0⟩ := kv
    by_cases h : k0 = k
    · simp [kvSet, h, kvGet, List.find?]
    · simp only [kvSet, if_neg h]
      simpa [kvGet, List.find?, h] using ih

theorem kvGet_kvSet_ne (kvs : List (Str × PyVal)) (k k' : Str) (x : PyVal)
    (h : k' ≠ k) : kvGet (kvSet kvs k x) k' = kvGet kvs k' := by
  induction kvs with
  | nil => simp [kvSet, kvGet, List.find?, Ne.symm h]
  | cons kv rest ih =>
    obtain ⟨k0, v0⟩ := kv
    by_cases h0 : k0 = k
    · subst h0
      simp [kvSet, kvGet, List.find?, Ne.symm h]
    · by_cases h1 : k0 = k'
      · subst h1
        simp [kvSet, kvGet, List.find?, h]
      · simp only [kvSet, if_neg h0]
        simpa [kvGet, List.find?, h1] using ih

theorem kvSet_kvSet_self (kvs : List (Str × PyVal)) (k : Str) (x y : PyVal) :
    kvSet (kvSet kvs k x) k y = kvSet kvs k y := by
  induction kvs with
  | nil => simp [kvSet]
  | cons kv rest ih =>
    obtain ⟨k0, v0⟩ := kv
    by_cases h : k0 = k
    · simp [kvSet, h]
    · simp [kvSet, h, ih]

theorem pyLower_length (s : Str) : (pyLower s).length = s.length :=
  List.length_map s Char.toLower

theorem pySplitChar_ne_nil (sep : Char) (s : Str) : pySplitChar sep s ≠ [] := by
  cases s with
  | nil => simp [pySplitChar]
  | cons c s =>
    simp only [pySplitChar]
    split
    · simp
    · split <;> simp

/-! ## Claim C7 -/

/-- C7: `is_valid_and_reachable_url`, with the HTTP fetch modelled as an
abstract optional response, is total and boolean (by its type), returns
`false` exactly when the fetch raises, the status code is at least 400,
the lowercased body contains `"404"`, `"page not found"` or
`"not available"`, or the body is shorter than 500 characters — and
`true` in exactly the remaining cases. -/
theorem c7_is_valid_and_reachable_url (resp : Option UrlResp) :
    is_valid_and_reachable_url resp = false ↔
      resp = none ∨ ∃ r, resp = some r ∧
        (400 ≤ r.status ∨
         pyContains (pyLower r.body) ("404".data) = true ∨
         pyContains (pyLower r.body) ("page not found".data) = true ∨
         pyContains (pyLower r.body) ("not available".data) = true ∨
         r.body.length < 500) := by
  cases resp with
  | none => simp [is_valid_and_reachable_url]
  | some r =>
    have hlen : (pyLower r.body).length = r.body.length := pyLower_length r.body
    simp only [is_valid_and_reachable_url]
    split_ifs with h1 h2 h3
    · simp only [eq_self_iff_true, true_iff]
      exact Or.inr ⟨r, rfl, Or.inl h1⟩
    · simp only [eq_self_iff_true, true_iff]
      refine Or.inr ⟨r, rfl, ?_⟩
      rcases (by simpa using h2 : (_ ∨ _) ∨ _) with (h | h) | h
      · exact Or.inr (Or.inl h)
      · exact Or.inr (Or.inr (Or.inl h))
      · exact Or.inr (Or.inr (Or.inr (Or.inl h)))
    · simp only [eq_self_iff_true, true_iff]
      exact Or.inr ⟨r, rfl, Or.inr (Or.inr (Or.inr (Or.inr (hlen ▸ h3))))⟩
    · simp only [Bool.true_eq_false, false_iff]
      rintro (h | ⟨r', hr', hc⟩)
      · exact h.elim
      · injection hr' with hr'
        subst hr'
        rcases hc with h | h | h | h | h
        · exact h1 h
        · exact h2 (by simp [h])
        · exact h2 (by simp [h])
        · exact h2 (by simp [h])
        · exact h3 (hlen ▸ h)

/-- Closed instance of C7: a status-500 response is rejected. -/
theorem c7_witness :
    is_valid_and_reachable_url c7Resp = false :=
  (c7_is_valid_and_reachable_url c7Resp).2
    (Or.inr ⟨⟨500, []⟩, rfl, Or.inl (by decide)⟩)

/-! ## Claim C10 -/

/-- C10: `generate_session_id` always returns a string of exactly 20
characters, each an ASCII letter or digit, and the `input_data` argument
has no influence on the output, which depends only on the random draws. -/
theorem c10_generate_session_id (inputData : Str)
    (draws : Fin 20 → Fin sessionAlphabet.length) :
    (generate_session_id inputData draws).length = 20 ∧
    (generate_session_id inputData draws).all
      (fun c => c.isAlpha || c.isDigit) = true ∧
    ∀ other : Str, generate_session_id inputData draws =
      generate_session_id other draws := by
  refine ⟨by simp [generate_session_id], ?_, fun other => rfl⟩
  rw [List.all_eq_true]
  intro c hc
  simp only [generate_session_id, List.mem_map] at hc
  obtain ⟨k, -, hk⟩ := hc
  have hmem : c ∈ sessionAlphabet :=
    hk ▸ List.get_mem sessionAlphabet (draws k).1 (draws k).2
  have halpha : ∀ x ∈ sessionAlphabet, (x.isAlpha || x.isDigit) = true := by decide
  exact halpha c hmem

/-! ## Claim C9 (corrected) -/

theorem titleCandidate_some (l t : Str) (h : titleCandidate l = some t) :
    (pyStrip l).isEmpty = false ∧
    pyStartsWith (pyStrip l) ("#".data) = false ∧
    t = stripTitleMarkers (pyStrip l) ∧
    t.length < 100 ∧ (pySplitWs t).length < 10 := by
  simp only [titleCandidate] at h
  split_ifs at h with h1 h2 h3
  injection h with h
  subst h
  exact ⟨by simpa using h1, by simpa using h2, rfl, h3.1, h3.2⟩

theorem titleLoop_some : ∀ (ls : List Str) (t : Str), titleLoop ls = some t →
    ∃ l ∈ ls, (pyStrip l).isEmpty = false ∧
      pyStartsWith (pyStrip l) ("#".data) = false ∧
      t = stripTitleMarkers (pyStrip l) ∧
      t.length < 100 ∧ (pySplitWs t).length < 10
  | [], t, h => Option.noConfusion h
  | l :: ls, t, h => by
    rw [titleLoop] at h
    cases hc : titleCandidate l with
    | some t0 =>
      rw [hc] at h
      injection h with h
      subst h
      exact ⟨l, List.mem_cons_self l ls, titleCandidate_some l t0 hc⟩
    | none =>
      rw [hc] at h
      obtain ⟨l', hl', hrest⟩ := titleLoop_some ls t h
      exact ⟨l', List.mem_cons_of_mem l hl', hrest⟩

/-- C9 (amended): `_extract_job_title` is total; the line list of the
stripped description is never empty, so the `"Unknown Position"`
fallback branch is unreachable; an empty or whitespace-only description
yields the empty string; and every result is either a cleaned candidate
among the first five lines (stripped, non-empty, not starting with `#`,
marker prefixes removed, under 100 characters and under 10 words) or the
first line of the stripped input.  (The original claim's "never returns
Unknown Position" fails: the function echoes that very string when the
description contains it; see the counterexample.) -/
theorem c9_extract_job_title (jd : Str) :
    pySplitChar '\n' (pyStrip jd) ≠ [] ∧
    (pyStrip jd = [] → extract_job_title jd = []) ∧
    ((∃ l ∈ (pySplitChar '\n' (pyStrip jd)).take 5,
        (pyStrip l).isEmpty = false ∧
        pyStartsWith (pyStrip l) ("#".data) = false ∧
        extract_job_title jd = stripTitleMarkers (pyStrip l) ∧
        (extract_job_title jd).length < 100 ∧
        (pySplitWs (extract_job_title jd)).length < 10) ∨
      extract_job_title jd =
        (pySplitChar '\n' (pyStrip jd)).headD unknownPositionStr) := by
  refine ⟨pySplitChar_ne_nil '\n' (pyStrip jd), ?_, ?_⟩
  · intro h
    unfold extract_job_title
    rw [h]
    rfl
  · cases hl : titleLoop ((pySplitChar '\n' (pyStrip jd)).take 5) with
    | some t =>
      have hr : extract_job_title jd = t := by
        unfold extract_job_title
        rw [hl]
      obtain ⟨l, hmem, h1, h2, h3, h4, h5⟩ :=
        titleLoop_some ((pySplitChar '\n' (pyStrip jd)).take 5) t hl
      rw [hr]
      exact Or.inl ⟨l, hmem, h1, h2, h3, h4, h5⟩
    | none =>
      right
      unfold extract_job_title
      rw [hl]
      cases hs : pySplitChar '\n' (pyStrip jd) with
      | nil => exact absurd hs (pySplitChar_ne_nil '\n' (pyStrip jd))
      | cons l0 rest => rfl

/-- Counterexample to C9 as stated: on the job description
`"Unknown Position"` the function does return `"Unknown Position"`
(as the accepted first-line candidate, not via the fallback branch). -/
theorem c9_counterexample :
    extract_job_title ("Unknown Position".data) = unknownPositionStr := by decide

/-- Closed instance of the amended C9: the empty description yields the
empty string. -/
theorem c9_witness : extract_job_title [] = [] :=
  (c9_extract_job_title []).2.1 rfl

/-! ## Claim C1 -/

/-- C1: `ClaudeClient._extract_json` is a three-stage extractor: a string
that `json.loads` accepts is returned as its direct parse; otherwise a
reply containing a fence is parsed from the (stripped, sliced) fence
contents, a ```` ```json ```` fence taking precedence over a plain
```` ``` ```` fence; otherwise the substring from the first `{` to the
last `}` is parsed; and it raises `ValueError` exactly when the stage it
selected has nothing to parse (no `{`…`}` span) or its selected
substring is not valid JSON. -/
theorem c1_extract_json (loads : Str → Option PyVal) (text : Str) :
    (∀ v, loads text = some v → extract_json loads text = .ok v) ∧
    (loads text = none → pyContains text fenceJsonTok = true →
      extract_json loads text =
        match loads (fenceJsonContent text) with
        | some v => .ok v
        | none => .error .invalidJson) ∧
    (loads text = none → pyContains text fenceJsonTok = false →
      pyContains text fenceTok = true →
      extract_json loads text =
        match loads (fenceContent text) with
        | some v => .ok v
        | none => .error .invalidJson) ∧
    (loads text = none → pyContains text fenceJsonTok = false →
      pyContains text fenceTok = false →
      extract_json loads text =
        if braceSpanOk text then
          match loads (braceContent text) with
          | some v => .ok v
          | none => .error .invalidJson
        else .error .couldNotExtract) ∧
    ((∃ err, extract_json loads text = .error err) ↔
      loads text = none ∧
        ((pyContains text fenceJsonTok = true ∧
            loads (fenceJsonContent text) = none) ∨
         (pyContains text fenceJsonTok = false ∧
            pyContains text fenceTok = true ∧
            loads (fenceContent text) = none) ∨
         (pyContains text fenceJsonTok = false ∧
            pyContains text fenceTok = false ∧
            (braceSpanOk text = false ∨ loads (braceContent text) = none)))) := by
  refine ⟨?_, ?_, ?_, ?_, ?_⟩
  · intro v hv
    unfold extract_json
    rw [hv]
  · intro hn hfj
    unfold extract_json
    rw [hn, hfj]
    simp
  · intro hn hfj hf
    unfold extract_json
    rw [hn, hfj, hf]
    simp
  · intro hn hfj hf
    unfold extract_json
    rw [hn, hfj, hf]
    simp
  · cases hd : loads text with
    | some v => simp [extract_json, hd]
    | none =>
      by_cases hfj : pyContains text fenceJsonTok
      · cases hfc : loads (fenceJsonContent text) with
        | some v => simp [extract_json, hd, hfj, hfc]
        | none => simp [extract_json, hd, hfj, hfc, ExtractErr.invalidJson]
      · by_cases hf : pyContains text fenceTok
        · cases hfc : loads (fenceContent text) with
          | some v => simp [extract_json, hd, hfj, hf, hfc]
          | none => simp [extract_json, hd, hfj, hf, hfc]
        · by_cases hb : braceSpanOk text
          · cases hbc : loads (braceContent text) with
            | some v => simp [extract_json, hd, hfj, hf, hb, hbc]
            | none => simp [extract_json, hd, hfj, hf, hb, hbc]
          · simp [extract_json, hd, hfj, hf, hb]

/-- Closed instance of C1: a non-JSON reply carrying a fenced `OK`
payload is parsed from the fence contents. -/
theorem c1_witness : extract_json c1Loads c1Text = .ok (.pint 7) := by
  have h := (c1_extract_json c1Loads c1Text).2.1 rfl rfl
  rw [h]
  rfl

/-! ## Claim C6 -/

theorem any_pyEq_iff (seen : List PyVal) (l : PyVal) :
    (seen.any fun s => pyEq s l) = true ↔ l ∈ seen := by
  rw [List.any_eq_true]
  constructor
  · rintro ⟨s, hs, he⟩
    exact (pyEq_iff s l).1 he ▸ hs
  · intro hl
    exact ⟨l, hl, pyEq_refl l⟩

theorem keepFirstLinks_cons_keep (seen : List PyVal) (r : PyVal) (rest : List PyVal)
    (ht : pyTruthy (linkOf r) = true) (hm : linkOf r ∉ seen) :
    keepFirstLinks seen (r :: rest) =
      r :: keepFirstLinks (linkOf r :: seen) rest := by
  rw [keepFirstLinks]
  rw [if_pos]
  rw [Bool.and_eq_true, ht]
  refine ⟨rfl, ?_⟩
  rw [Bool.not_eq_true', ← Bool.not_eq_true, any_pyEq_iff]
  exact hm

theorem keepFirstLinks_cons_skip (seen : List PyVal) (r : PyVal) (rest : List PyVal)
    (h : pyTruthy (linkOf r) = false ∨ linkOf r ∈ seen) :
    keepFirstLinks seen (r :: rest) = keepFirstLinks seen rest := by
  rw [keepFirstLinks]
  rw [if_neg]
  rw [Bool.and_eq_true]
  rintro ⟨h1, h2⟩
  rcases h with h | h
  · rw [h1] at h
    exact Bool.noConfusion h
  · rw [Bool.not_eq_true', ← Bool.not_eq_true, any_pyEq_iff] at h2
    exact h2 h

theorem keepFirstLinks_sublist : ∀ (rs seen : List PyVal),
    List.Sublist (keepFirstLinks seen rs) rs
  | [], _ => by rw [keepFirstLinks]
  | r :: rest, seen => by
    by_cases ht : pyTruthy (linkOf r) = true
    · by_cases hm : linkOf r ∈ seen
      · rw [keepFirstLinks_cons_skip seen r rest (Or.inr hm)]
        exact (keepFirstLinks_sublist rest seen).cons r
      · rw [keepFirstLinks_cons_keep seen r rest ht hm]
        exact (keepFirstLinks_sublist rest (linkOf r :: seen)).cons₂ r
    · rw [keepFirstLinks_cons_skip seen r rest
        (Or.inl (Bool.not_eq_true _ ▸ ht : pyTruthy (linkOf r) = false))]
      exact (keepFirstLinks_sublist rest seen).cons r

theorem keepFirstLinks_truthy : ∀ (rs seen : List PyVal) (r : PyVal),
    r ∈ keepFirstLinks seen rs → pyTruthy (linkOf r) = true
  | [], _, r, h => by rw [keepFirstLinks] at h; exact absurd h (List.not_mem_nil r)
  | r0 :: rest, seen, r, h => by
    by_cases ht : pyTruthy (linkOf r0) = true
    · by_cases hm : linkOf r0 ∈ seen
      · rw [keepFirstLinks_cons_skip seen r0 rest (Or.inr hm)] at h
        exact keepFirstLinks_truthy rest seen r h
      · rw [keepFirstLinks_cons_keep seen r0 rest ht hm] at h
        rcases List.mem_cons.1 h with h | h
        · subst h; exact ht
        · exact keepFirstLinks_truthy rest (linkOf r0 :: seen) r h
    · rw [keepFirstLinks_cons_skip seen r0 rest
        (Or.inl (Bool.not_eq_true _ ▸ ht))] at h
      exact keepFirstLinks_truthy rest seen r h

theorem keepFirstLinks_not_seen : ∀ (rs seen : List PyVal) (r : PyVal),
    r ∈ keepFirstLinks seen rs → linkOf r ∉ seen
  | [], _, r, h => by rw [keepFirstLinks] at h; exact absurd h (List.not_mem_nil r)
  | r0 :: rest, seen, r, h => by
    by_cases ht : pyTruthy (linkOf r0) = true
    · by_cases hm : linkOf r0 ∈ seen
      · rw [keepFirstLinks_cons_skip seen r0 rest (Or.inr hm)] at h
        exact keepFirstLinks_not_seen rest seen r h
      · rw [keepFirstLinks_cons_keep seen r0 rest ht hm] at h
        rcases List.mem_cons.1 h with h | h
        · subst h; exact hm
        · intro hc
          exact keepFirstLinks_not_seen rest (linkOf r0 :: seen) r h
            (List.mem_cons_of_mem _ hc)
    · rw [keepFirstLinks_cons_skip seen r0 rest
        (Or.inl (Bool.not_eq_true _ ▸ ht))] at h
      exact keepFirstLinks_not_seen rest seen r h

theorem keepFirstLinks_pairwise : ∀ (rs seen : List PyVal),
    (keepFirstLinks seen rs).Pairwise (fun a b => linkOf a ≠ linkOf b)
  | [], _ => by rw [keepFirstLinks]; exact List.Pairwise.nil
  | r0 :: rest, seen => by
    by_cases ht : pyTruthy (linkOf r0) = true
    · by_cases hm : linkOf r0 ∈ seen
      · rw [keepFirstLinks_cons_skip seen r0 rest (Or.inr hm)]
        exact keepFirstLinks_pairwise rest seen
      · rw [keepFirstLinks_cons_keep seen r0 rest ht hm]
        refine List.Pairwise.cons ?_ (keepFirstLinks_pairwise rest (linkOf r0 :: seen))
        intro b hb he
        exact keepFirstLinks_not_seen rest (linkOf r0 :: seen) b hb
          (he ▸ List.mem_cons_self (linkOf r0) seen)
    · rw [keepFirstLinks_cons_skip seen r0 rest
        (Or.inl (Bool.not_eq_true _ ▸ ht))]
      exact keepFirstLinks_pairwise rest seen

theorem keepFirstLinks_complete : ∀ (rs seen : List PyVal) (r : PyVal),
    r ∈ rs → pyTruthy (linkOf r) = true →
    linkOf r ∈ seen ∨ ∃ r' ∈ keepFirstLinks seen rs, linkOf r' = linkOf r
  | [], _, r, h, _ => absurd h (List.not_mem_nil r)
  | r0 :: rest, seen, r, h, htr => by
    by_cases ht : pyTruthy (linkOf r0) = true
    · by_cases hm : linkOf r0 ∈ seen
      · rw [keepFirstLinks_cons_skip seen r0 rest (Or.inr hm)]
        rcases List.mem_cons.1 h with h | h
        · subst h; exact Or.inl hm
        · exact keepFirstLinks_complete rest seen r h htr
      · rw [keepFirstLinks_cons_keep seen r0 rest ht hm]
        rcases List.mem_cons.1 h with h | h
        · subst h
          exact Or.inr ⟨r, List.mem_cons_self r _, rfl⟩
        · rcases keepFirstLinks_complete rest (linkOf r0 :: seen) r h htr with hc | ⟨r', hr', he⟩
          · rcases List.mem_cons.1 hc with hc | hc
            · exact Or.inr ⟨r0, List.mem_cons_self r0 _, hc.symm⟩
            · exact Or.inl hc
          · exact Or.inr ⟨r', List.mem_cons_of_mem r0 hr', he⟩
    · rw [keepFirstLinks_cons_skip seen r0 rest
        (Or.inl (Bool.not_eq_true _ ▸ ht))]
      rcases List.mem_cons.1 h with h | h
      · subst h
        exact absurd htr (by simpa using ht)
      · exact keepFirstLinks_complete rest seen r h htr


theorem keepFirstLinks_first_occurrence : ∀ (rs seen : List PyVal) (r' : PyVal),
    r' ∈ keepFirstLinks seen rs →
    (rs.filter fun r0 => pyEq (linkOf r0) (linkOf r')).head? = some r'
  | [], _, r', h => by rw [keepFirstLinks] at h; exact absurd h (List.not_mem_nil r')
  | r0 :: rest, seen, r', h => by
    by_cases ht : pyTruthy (linkOf r0) = true
    · by_cases hm : linkOf r0 ∈ seen
      · rw [keepFirstLinks_cons_skip seen r0 rest (Or.inr hm)] at h
        have hne : linkOf r0 ≠ linkOf r' := fun he =>
          keepFirstLinks_not_seen rest seen r' h (he ▸ hm)
        rw [List.filter_cons, if_neg (fun hc => hne ((pyEq_iff _ _).1 hc))]
        exact keepFirstLinks_first_occurrence rest seen r' h
      · rw [keepFirstLinks_cons_keep seen r0 rest ht hm] at h
        rcases List.mem_cons.1 h with h | h
        · subst h
          rw [List.filter_cons, if_pos (pyEq_refl _)]
          rfl
        · have hne : linkOf r0 ≠ linkOf r' := fun he =>
            keepFirstLinks_not_seen rest (linkOf r0 :: seen) r' h
              (he ▸ List.mem_cons_self _ _)
          rw [List.filter_cons, if_neg (fun hc => hne ((pyEq_iff _ _).1 hc))]
          exact keepFirstLinks_first_occurrence rest (linkOf r0 :: seen) r' h
    · have ht' : pyTruthy (linkOf r0) = false := Bool.not_eq_true _ ▸ ht
      rw [keepFirstLinks_cons_skip seen r0 rest (Or.inl ht')] at h
      have htr : pyTruthy (linkOf r') = true := keepFirstLinks_truthy rest seen r' h
      have hne : linkOf r0 ≠ linkOf r' := by
        intro he
        rw [he, htr] at ht'
        exact Bool.noConfusion ht'
      rw [List.filter_cons, if_neg (fun hc => hne ((pyEq_iff _ _).1 hc))]
      exact keepFirstLinks_first_occurrence rest seen r' h

theorem keepFirstLinks_stable : ∀ (rs seen : List PyVal),
    (∀ r ∈ rs, pyTruthy (linkOf r) = true) →
    rs.Pairwise (fun a b => linkOf a ≠ linkOf b) →
    (∀ r ∈ rs, linkOf r ∉ seen) →
    keepFirstLinks seen rs = rs
  | [], _, _, _, _ => by rw [keepFirstLinks]
  | r0 :: rest, seen, htr, hpw, hns => by
    rw [keepFirstLinks_cons_keep seen r0 rest
      (htr r0 (List.mem_cons_self r0 rest)) (hns r0 (List.mem_cons_self r0 rest))]
    congr 1
    refine keepFirstLinks_stable rest (linkOf r0 :: seen)
      (fun r hr => htr r (List.mem_cons_of_mem r0 hr))
      (List.Pairwise.sublist (List.sublist_cons_self r0 rest) hpw) ?_
    intro r hr hmem
    rcases List.mem_cons.1 hmem with he | he
    · exact (List.pairwise_cons.1 hpw).1 r hr he.symm
    · exact hns r (List.mem_cons_of_mem r0 hr) he

theorem dedupLoop_ok : ∀ (rs seen : List PyVal),
    (∀ r ∈ rs, r.isDict = true) →
    (∀ r ∈ rs, (linkOf r).isList = false ∧ (linkOf r).isDict = false) →
    dedupLoop seen rs = .ok (keepFirstLinks seen rs)
  | [], seen, _, _ => by rw [dedupLoop, keepFirstLinks]
  | r :: rest, seen, hd, hs => by
    have ihd : ∀ x ∈ rest, x.isDict = true :=
      fun x hx => hd x (List.mem_cons_of_mem r hx)
    have ihs : ∀ x ∈ rest, (linkOf x).isList = false ∧ (linkOf x).isDict = false :=
      fun x hx => hs x (List.mem_cons_of_mem r hx)
    cases r with
    | pdict kvs =>
      have hsc := hs (.pdict kvs) (List.mem_cons_self _ rest)
      rw [dedupLoop]
      by_cases ht : pyTruthy (linkOf (.pdict kvs)) = true
      · rw [if_pos ht, if_neg (by rw [hsc.1, hsc.2]; simp)]
        by_cases hm : linkOf (.pdict kvs) ∈ seen
        · rw [if_pos ((any_pyEq_iff seen _).2 hm),
            keepFirstLinks_cons_skip seen _ rest (Or.inr hm)]
          exact dedupLoop_ok rest seen ihd ihs
        · rw [if_neg (fun hc => hm ((any_pyEq_iff seen _).1 hc)),
            keepFirstLinks_cons_keep seen _ rest ht hm,
            dedupLoop_ok rest (linkOf (.pdict kvs) :: seen) ihd ihs]
      · have ht' : pyTruthy (linkOf (.pdict kvs)) = false := Bool.not_eq_true _ ▸ ht
        rw [if_neg (by rw [ht']; simp),
          keepFirstLinks_cons_skip seen _ rest (Or.inl ht')]
        exact dedupLoop_ok rest seen ihd ihs
    | pnone => exact absurd (hd _ (List.mem_cons_self _ rest)) (by simp [PyVal.isDict])
    | pbool b => exact absurd (hd _ (List.mem_cons_self _ rest)) (by simp [PyVal.isDict])
    | pint n => exact absurd (hd _ (List.mem_cons_self _ rest)) (by simp [PyVal.isDict])
    | pstr s => exact absurd (hd _ (List.mem_cons_self _ rest)) (by simp [PyVal.isDict])
    | plist l => exact absurd (hd _ (List.mem_cons_self _ rest)) (by simp [PyVal.isDict])

/-- C6: `deduplicate_resources` on a feedback dict (with dict resources
and hashable links, as produced by the judge pipeline) replaces the
`resources` list by the sublist keeping exactly the first occurrence of
each distinct link value in the original order, drops every resource
whose link is missing/`None`/empty (falsy), leaves every other key
unchanged; the output's links are pairwise distinct and the operation is
idempotent. -/
theorem c6_deduplicate_resources (kvs : List (Str × PyVal)) (rs : List PyVal)
    (hres : (PyVal.pdict kvs).getD resourcesK (.plist []) = .plist rs)
    (hdicts : ∀ r ∈ rs, r.isDict = true)
    (hscal : ∀ r ∈ rs, (linkOf r).isList = false ∧ (linkOf r).isDict = false) :
    ∃ kept,
      deduplicate_resources (.pdict kvs) =
        .ok (.pdict (kvSet kvs resourcesK (.plist kept))) ∧
      List.Sublist kept rs ∧
      (∀ r ∈ kept, pyTruthy (linkOf r) = true) ∧
      (∀ r ∈ rs, pyTruthy (linkOf r) = true → ∃ r' ∈ kept, linkOf r' = linkOf r) ∧
      (∀ r' ∈ kept,
        (rs.filter fun r0 => pyEq (linkOf r0) (linkOf r')).head? = some r') ∧
      kept.Pairwise (fun a b => linkOf a ≠ linkOf b) ∧
      (∀ k, k ≠ resourcesK →
        kvGet (kvSet kvs resourcesK (.plist kept)) k = kvGet kvs k) ∧
      deduplicate_resources (.pdict (kvSet kvs resourcesK (.plist kept))) =
        .ok (.pdict (kvSet kvs resourcesK (.plist kept))) := by
  refine ⟨keepFirstLinks [] rs, ?_, keepFirstLinks_sublist rs [],
    fun r hr => keepFirstLinks_truthy rs [] r hr,
    fun r hr htr =>
      (keepFirstLinks_complete rs [] r hr htr).resolve_left (List.not_mem_nil _),
    fun r' hr' => keepFirstLinks_first_occurrence rs [] r' hr',
    keepFirstLinks_pairwise rs [],
    fun k hk => kvGet_kvSet_ne kvs resourcesK k _ hk, ?_⟩
  · unfold deduplicate_resources
    dsimp only
    rw [hres]
    dsimp only
    rw [dedupLoop_ok rs [] hdicts hscal]
  · have hsub := (keepFirstLinks_sublist rs []).subset
    have hd2 : ∀ r ∈ keepFirstLinks [] rs, r.isDict = true :=
      fun r hr => hdicts r (hsub hr)
    have hs2 : ∀ r ∈ keepFirstLinks [] rs,
        (linkOf r).isList = false ∧ (linkOf r).isDict = false :=
      fun r hr => hscal r (hsub hr)
    have hstab : keepFirstLinks [] (keepFirstLinks [] rs) = keepFirstLinks [] rs :=
      keepFirstLinks_stable (keepFirstLinks [] rs) []
        (fun r hr => keepFirstLinks_truthy rs [] r hr)
        (keepFirstLinks_pairwise rs [])
        (fun r _ hmem => absurd hmem (List.not_mem_nil _))
    have hres2 : (PyVal.pdict (kvSet kvs resourcesK
        (.plist (keepFirstLinks [] rs)))).getD resourcesK (.plist []) =
        .plist (keepFirstLinks [] rs) := by
      simp [PyVal.getD, kvGet_kvSet_self]
    unfold deduplicate_resources
    dsimp only
    rw [hres2]
    dsimp only
    rw [dedupLoop_ok (keepFirstLinks [] rs) [] hd2 hs2, hstab]
    dsimp only
    rw [kvSet_kvSet_self]

/-- Closed instance of C6 at a feedback dict with a duplicated link, a
missing link, and an empty link. -/
theorem c6_witness :
    ∃ kept,
      deduplicate_resources (.pdict c6Kvs) =
        .ok (.pdict (kvSet c6Kvs resourcesK (.plist kept))) ∧
      List.Sublist kept c6Rs ∧
      (∀ r ∈ kept, pyTruthy (linkOf r) = true) ∧
      (∀ r ∈ c6Rs, pyTruthy (linkOf r) = true → ∃ r' ∈ kept, linkOf r' = linkOf r) ∧
      (∀ r' ∈ kept,
        (c6Rs.filter fun r0 => pyEq (linkOf r0) (linkOf r')).head? = some r') ∧
      kept.Pairwise (fun a b => linkOf a ≠ linkOf b) ∧
      (∀ k, k ≠ resourcesK →
        kvGet (kvSet c6Kvs resourcesK (.plist kept)) k = kvGet c6Kvs k) ∧
      deduplicate_resources (.pdict (kvSet c6Kvs resourcesK (.plist kept))) =
        .ok (.pdict (kvSet c6Kvs resourcesK (.plist kept))) :=
  c6_deduplicate_resources c6Kvs c6Rs rfl (by decide) (by decide)

/-! ## Claim C3 (corrected) -/

theorem validateAnswersFrom_all_dicts :
    ∀ (result : List PyVal) (ql : List PyVal) (i : Nat),
    (∀ x ∈ result, x.isDict = true) →
    (validateAnswersFrom ql i result).length = result.length ∧
    ∀ j, j < result.length →
      (validateAnswersFrom ql i result).getD j .pnone =
        mkValidatedItem (result.getD j .pnone) (normTags ql (i + j))
  | [], ql, i, _ => by
    refine ⟨rfl, ?_⟩
    intro j hj
    exact absurd hj (by simp)
  | item :: rest, ql, i, hall => by
    have hih := validateAnswersFrom_all_dicts rest ql (i + 1)
      (fun x hx => hall x (List.mem_cons_of_mem item hx))
    cases item with
    | pdict kvs =>
      rw [validateAnswersFrom]
      refine ⟨by simpa using hih.1, ?_⟩
      intro j hj
      cases j with
      | zero => simp [List.getD]
      | succ j =>
        have hj' : j < rest.length := by simpa using hj
        have := hih.2 j hj'
        have harith : i + 1 + j = i + (j + 1) := by omega
        rw [harith] at this
        simpa [List.getD] using this
    | pnone => exact absurd (hall _ (List.mem_cons_self _ rest)) (by simp [PyVal.isDict])
    | pbool b => exact absurd (hall _ (List.mem_cons_self _ rest)) (by simp [PyVal.isDict])
    | pint n => exact absurd (hall _ (List.mem_cons_self _ rest)) (by simp [PyVal.isDict])
    | pstr s => exact absurd (hall _ (List.mem_cons_self _ rest)) (by simp [PyVal.isDict])
    | plist l => exact absurd (hall _ (List.mem_cons_self _ rest)) (by simp [PyVal.isDict])

/-- C3 (amended): whenever the model returns a list whose items are all
dicts, the validated list has the same length and its `i`-th item is
rebuilt from the `i`-th model item with `question`/`answer` defaulting
to `""` and `tags` replaced by the normalised tags of the `i`-th input
question — on the primary path and on the fallback-extraction path
alike, which both apply the same validation.  (For a model list with
non-dict items the original claim's indexing fails, because non-dict
items are skipped and the validated list shifts; see the
counterexample.) -/
theorem c3_answer_tags :
    (∀ (result ql : List PyVal), (∀ x ∈ result, x.isDict = true) →
      (validateAnswers result ql).length = result.length ∧
      ∀ j, j < result.length →
        (validateAnswers result ql).getD j .pnone =
          mkValidatedItem (result.getD j .pnone) (normTags ql j)) ∧
    (∀ (ql l : List PyVal),
      answerPostProcess ql (.plist l) = .plist (validateAnswers l ql)) ∧
    (∀ (loads : Str → Option PyVal) (ff : Str → Option Str) (qd : PyVal)
      (c2 : Except Str Str) (t : Str) (l : List PyVal),
      extract_json loads t = .ok (.plist l) →
      (extractQuestionsList qd).isEmpty = false →
      answerGeneratorRun loads ff qd (.ok t) c2 =
        .plist (validateAnswers l (extractQuestionsList qd))) ∧
    (∀ (loads : Str → Option PyVal) (ff : Str → Option Str) (qd : PyVal)
      (c1 : Except Str Str) (t : Str) (e : Str),
      generateJsonAttempt loads c1 = .error e →
      (extractQuestionsList qd).isEmpty = false →
      answerGeneratorRun loads ff qd c1 (.ok t) =
        answerPostProcess (extractQuestionsList qd)
          (answerFallbackParse ff loads t)) := by
  refine ⟨?_, fun ql l => rfl, ?_, ?_⟩
  · intro result ql hall
    have h := validateAnswersFrom_all_dicts result ql 0 hall
    refine ⟨h.1, ?_⟩
    intro j hj
    simpa using h.2 j hj
  · intro loads ff qd c2 t l hx hq
    unfold answerGeneratorRun
    rw [if_neg (by rw [hq]; exact Bool.noConfusion)]
    have hg : generateJsonAttempt loads (.ok t) = .ok (.plist l) := by
      unfold generateJsonAttempt
      dsimp only
      rw [hx]
    rw [hg]
    rfl
  · intro loads ff qd c1 t e hg hq
    unfold answerGeneratorRun
    rw [if_neg (by rw [hq]; exact Bool.noConfusion)]
    rw [hg]
    rfl

/-- Counterexample to C3 as stated: when the model list contains a
non-dict item, the validated list shifts, so its 0-th item carries the
tags of input question 1, not of question 0. -/
theorem c3_counterexample :
    answerGeneratorRun c3Loads (fun _ => none) c3Qd (.ok c3Reply)
        (.error ("E".data)) =
      .plist [.pdict [(questionK, .pstr ("q1".data)),
                      (answerK, .pstr ("ans".data)),
                      (tagsK, .plist [.pstr ("b".data)])]] ∧
    normTags (extractQuestionsList c3Qd) 0 = .plist [.pstr ("a".data)] ∧
    PyVal.plist [.pstr ("b".data)] ≠ PyVal.plist [.pstr ("a".data)] := by
  refine ⟨rfl, rfl, ?_⟩
  intro h
  simp only [PyVal.plist.injEq, List.cons.injEq, PyVal.pstr.injEq, and_true] at h
  exact absurd h (by decide)

/-- Closed instance of the amended C3 on an all-dict model list. -/
theorem c3_witness :
    (validateAnswers c3WRes c3WQs).getD 0 .pnone =
      mkValidatedItem (c3WRes.getD 0 .pnone) (normTags c3WQs 0) :=
  ((c3_answer_tags.1 c3WRes c3WQs (by decide)).2 0 (by decide))

/-! ## Claim C4 -/

theorem getD_wfFail_success (msg uid sid : Str) :
    (wfFail msg uid sid).getD successK (.pbool false) = .pbool false := by
  by_cases h : sid.isEmpty <;> simp [wfFail, PyVal.getD, kvGet, List.find?, h]

theorem getD_wfFail_success' (msg uid sid : Str) :
    (wfFail msg uid sid).getD successK .pnone = .pbool false := by
  by_cases h : sid.isEmpty <;> simp [wfFail, PyVal.getD, kvGet, List.find?, h]

/-- The `completed_agents` value of the success dictionary. -/
def completedAgentsVal : PyVal :=
  .plist [.pstr ("summarizer".data), .pstr ("search".data),
          .pstr ("question_generator".data), .pstr ("answer_generator".data)]

theorem getD_wfSuccess_success (uid sid : Str) (ps faqs qd ar tv : PyVal) :
    (wfSuccess uid sid ps faqs qd ar tv).getD successK (.pbool false) =
      .pbool true := rfl

theorem getD_wfSuccess_completed (uid sid : Str) (ps faqs qd ar tv : PyVal) :
    (wfSuccess uid sid ps faqs qd ar tv).getD completedAgentsK .pnone =
      completedAgentsVal := rfl

/-- C4: the workflow invokes the four preparation agents in the fixed
order summarizer, search, question generator, answer generator — the
invocation trace is always a prefix of that sequence (the shallow
embedding of the awaited calls is sequential, mirroring the source's
`await` of each `asyncio.to_thread` call before the next) — and every
run that returns `"success": true` has invoked all four and reports
`completed_agents` equal to exactly that list. -/
theorem c4_workflow_order (userId : Str) (sidArg : Option Str) (env : WfEnv) :
    (∃ n, (run_preparation_workflow userId sidArg env).2 = allAgents.take n) ∧
    ((run_preparation_workflow userId sidArg env).1.getD successK
        (.pbool false) = .pbool true →
      (run_preparation_workflow userId sidArg env).2 = allAgents ∧
      (run_preparation_workflow userId sidArg env).1.getD completedAgentsK
        .pnone = completedAgentsVal) := by
  obtain ⟨gen, summ, search, qgen, agen, timeVal⟩ := env
  unfold run_preparation_workflow
  dsimp only
  cases summ with
  | error e =>
    exact ⟨⟨1, rfl⟩, fun h => by rw [getD_wfFail_success] at h; simp at h⟩
  | ok ps =>
    dsimp only
    by_cases h1 : errDictP ps = true
    · rw [if_pos h1]
      exact ⟨⟨1, rfl⟩, fun h => by rw [getD_wfFail_success] at h; simp at h⟩
    · rw [if_neg (by simpa using h1)]
      cases search with
      | error e =>
        exact ⟨⟨2, rfl⟩, fun h => by rw [getD_wfFail_success] at h; simp at h⟩
      | ok faqs0 =>
        dsimp only
        cases qgen with
        | error e =>
          exact ⟨⟨3, rfl⟩, fun h => by rw [getD_wfFail_success] at h; simp at h⟩
        | ok qd =>
          dsimp only
          by_cases h2 : errDictP qd = true
          · rw [if_pos h2]
            exact ⟨⟨3, rfl⟩, fun h => by rw [getD_wfFail_success] at h; simp at h⟩
          · rw [if_neg (by simpa using h2)]
            cases agen with
            | error e =>
              exact ⟨⟨4, rfl⟩,
                fun h => by rw [getD_wfFail_success] at h; simp at h⟩
            | ok ar =>
              dsimp only
              by_cases h3 : errDictP ar = true
              · rw [if_pos h3]
                exact ⟨⟨4, rfl⟩,
                  fun h => by rw [getD_wfFail_success] at h; simp at h⟩
              · rw [if_neg (by simpa using h3)]
                cases ar with
                | pdict akvs =>
                  exact ⟨⟨4, rfl⟩, fun _ => ⟨rfl, rfl⟩⟩
                | pnone =>
                  exact ⟨⟨4, rfl⟩,
                    fun h => by rw [getD_wfFail_success] at h; simp at h⟩
                | pbool b =>
                  exact ⟨⟨4, rfl⟩,
                    fun h => by rw [getD_wfFail_success] at h; simp at h⟩
                | pint n =>
                  exact ⟨⟨4, rfl⟩,
                    fun h => by rw [getD_wfFail_success] at h; simp at h⟩
                | pstr s =>
                  exact ⟨⟨4, rfl⟩,
                    fun h => by rw [getD_wfFail_success] at h; simp at h⟩
                | plist l =>
                  exact ⟨⟨4, rfl⟩,
                    fun h => by rw [getD_wfFail_success] at h; simp at h⟩

/-- Closed instance of C4: an all-success environment yields the full
trace and the four-agent `completed_agents` list. -/
theorem c4_witness :
    (run_preparation_workflow ("u".data) none c4Env).2 = allAgents ∧
    (run_preparation_workflow ("u".data) none c4Env).1.getD completedAgentsK
      .pnone = completedAgentsVal :=
  (c4_workflow_order ("u".data) none c4Env).2 rfl

/-! ## Claims C5 and C8: shared workflow-failure lemmas -/

theorem wf_fail_summ_exc (userId : Str) (sidArg : Option Str) (env : WfEnv)
    (e : Str) (he : env.summ = .error e) :
    (run_preparation_workflow userId sidArg env).1 =
      wfFail e userId (wfSessionId sidArg env) := by
  obtain ⟨gen, summ, search, qgen, agen, timeVal⟩ := env
  cases he
  rfl

theorem wf_fail_summ_errdict (userId : Str) (sidArg : Option Str) (env : WfEnv)
    (ps : PyVal) (hs : env.summ = .ok ps) (herr : errDictP ps = true) :
    (run_preparation_workflow userId sidArg env).1 =
      wfFail (summErrRaise ps) userId (wfSessionId sidArg env) := by
  obtain ⟨gen, summ, search, qgen, agen, timeVal⟩ := env
  cases hs
  unfold run_preparation_workflow
  dsimp only
  rw [if_pos herr]

theorem wf_fail_qgen_errdict (userId : Str) (sidArg : Option Str) (env : WfEnv)
    (ps faqs0 qd : PyVal) (hs : env.summ = .ok ps) (hne : errDictP ps = false)
    (hse : env.search = .ok faqs0) (hq : env.qgen = .ok qd)
    (herr : errDictP qd = true) :
    (run_preparation_workflow userId sidArg env).1 =
      wfFail (qgenErrRaise qd) userId (wfSessionId sidArg env) := by
  obtain ⟨gen, summ, search, qgen, agen, timeVal⟩ := env
  cases hs
  cases hse
  cases hq
  unfold run_preparation_workflow
  dsimp only
  rw [if_neg (by rw [hne]; exact Bool.noConfusion), if_pos herr]

theorem wf_fail_agen_errdict (userId : Str) (sidArg : Option Str) (env : WfEnv)
    (ps faqs0 qd ar : PyVal) (hs : env.summ = .ok ps)
    (hne : errDictP ps = false) (hse : env.search = .ok faqs0)
    (hq : env.qgen = .ok qd) (hqe : errDictP qd = false)
    (ha : env.agen = .ok ar) (herr : errDictP ar = true) :
    (run_preparation_workflow userId sidArg env).1 =
      wfFail (agenErrRaise ar) userId (wfSessionId sidArg env) := by
  obtain ⟨gen, summ, search, qgen, agen, timeVal⟩ := env
  cases hs
  cases hse
  cases hq
  cases ha
  unfold run_preparation_workflow
  dsimp only
  rw [if_neg (by rw [hne]; exact Bool.noConfusion),
    if_neg (by rw [hqe]; exact Bool.noConfusion), if_pos herr]

theorem wf_fail_answers_get (userId : Str) (sidArg : Option Str) (env : WfEnv)
    (ps faqs0 qd ar : PyVal) (hs : env.summ = .ok ps)
    (hne : errDictP ps = false) (hse : env.search = .ok faqs0)
    (hq : env.qgen = .ok qd) (hqe : errDictP qd = false)
    (ha : env.agen = .ok ar) (herr : errDictP ar = false)
    (hnd : ar.isDict = false) :
    (run_preparation_workflow userId sidArg env).1 =
      wfFail attrGetMsg userId (wfSessionId sidArg env) := by
  obtain ⟨gen, summ, search, qgen, agen, timeVal⟩ := env
  cases hs
  cases hse
  cases hq
  cases ha
  unfold run_preparation_workflow
  dsimp only
  rw [if_neg (by rw [hne]; exact Bool.noConfusion),
    if_neg (by rw [hqe]; exact Bool.noConfusion),
    if_neg (by rw [herr]; exact Bool.noConfusion)]
  cases ar with
  | pdict akvs => exact absurd hnd (by simp [PyVal.isDict])
  | pnone => rfl
  | pbool b => rfl
  | pint n => rfl
  | pstr s => rfl
  | plist l => rfl

/-- C5: every exception raised inside the workflow body — an agent call
raising, an agent returning an error dict (re-raised with the
`"<Agent> error: "` message), or the final `answers_result.get` on a
non-dict — is caught: the workflow returns a dictionary with
`"success": false`, the exception's message string under `"error"`, the
`user_id`, and the established session/workflow ids (the `wfFail` shape:
`session_id` falls back to `None` only when the established id is the
empty string, and `workflow_id` is always set by the time any modelled
exception can occur). -/
theorem c5_workflow_error_handling (userId : Str) (sidArg : Option Str)
    (env : WfEnv) :
    ((run_preparation_workflow userId sidArg env).1.getD successK .pnone =
        .pbool true ∨
      ∃ m, (run_preparation_workflow userId sidArg env).1 =
        wfFail m userId (wfSessionId sidArg env)) ∧
    (∀ e, env.summ = .error e →
      (run_preparation_workflow userId sidArg env).1 =
        wfFail e userId (wfSessionId sidArg env)) ∧
    (∀ ps, env.summ = .ok ps → errDictP ps = true →
      (run_preparation_workflow userId sidArg env).1 =
        wfFail (summErrRaise ps) userId (wfSessionId sidArg env)) ∧
    (∀ ps faqs0 qd, env.summ = .ok ps → errDictP ps = false →
      env.search = .ok faqs0 → env.qgen = .ok qd → errDictP qd = true →
      (run_preparation_workflow userId sidArg env).1 =
        wfFail (qgenErrRaise qd) userId (wfSessionId sidArg env)) ∧
    (∀ ps faqs0 qd ar, env.summ = .ok ps → errDictP ps = false →
      env.search = .ok faqs0 → env.qgen = .ok qd → errDictP qd = false →
      env.agen = .ok ar → errDictP ar = true →
      (run_preparation_workflow userId sidArg env).1 =
        wfFail (agenErrRaise ar) userId (wfSessionId sidArg env)) ∧
    (∀ ps faqs0 qd ar, env.summ = .ok ps → errDictP ps = false →
      env.search = .ok faqs0 → env.qgen = .ok qd → errDictP qd = false →
      env.agen = .ok ar → errDictP ar = false → ar.isDict = false →
      (run_preparation_workflow userId sidArg env).1 =
        wfFail attrGetMsg userId (wfSessionId sidArg env)) := by
  refine ⟨?_,
    fun e he => wf_fail_summ_exc userId sidArg env e he,
    fun ps hs herr => wf_fail_summ_errdict userId sidArg env ps hs herr,
    fun ps faqs0 qd hs hne hse hq herr =>
      wf_fail_qgen_errdict userId sidArg env ps faqs0 qd hs hne hse hq herr,
    fun ps faqs0 qd ar hs hne hse hq hqe ha herr =>
      wf_fail_agen_errdict userId sidArg env ps faqs0 qd ar hs hne hse hq hqe
        ha herr,
    fun ps faqs0 qd ar hs hne hse hq hqe ha herr hnd =>
      wf_fail_answers_get userId sidArg env ps faqs0 qd ar hs hne hse hq hqe
        ha herr hnd⟩
  obtain ⟨gen, summ, search, qgen, agen, timeVal⟩ := env
  unfold run_preparation_workflow
  dsimp only
  cases summ with
  | error e => exact Or.inr ⟨e, rfl⟩
  | ok ps =>
    dsimp only
    by_cases h1 : errDictP ps = true
    · rw [if_pos h1]
      exact Or.inr ⟨summErrRaise ps, rfl⟩
    · rw [if_neg (by simpa using h1)]
      cases search with
      | error e => exact Or.inr ⟨e, rfl⟩
      | ok faqs0 =>
        dsimp only
        cases qgen with
        | error e => exact Or.inr ⟨e, rfl⟩
        | ok qd =>
          dsimp only
          by_cases h2 : errDictP qd = true
          · rw [if_pos h2]
            exact Or.inr ⟨qgenErrRaise qd, rfl⟩
          · rw [if_neg (by simpa using h2)]
            cases agen with
            | error e => exact Or.inr ⟨e, rfl⟩
            | ok ar =>
              dsimp only
              by_cases h3 : errDictP ar = true
              · rw [if_pos h3]
                exact Or.inr ⟨agenErrRaise ar, rfl⟩
              · rw [if_neg (by simpa using h3)]
                cases ar with
                | pdict akvs => exact Or.inl rfl
                | pnone => exact Or.inr ⟨attrGetMsg, rfl⟩
                | pbool b => exact Or.inr ⟨attrGetMsg, rfl⟩
                | pint n => exact Or.inr ⟨attrGetMsg, rfl⟩
                | pstr s => exact Or.inr ⟨attrGetMsg, rfl⟩
                | plist l => exact Or.inr ⟨attrGetMsg, rfl⟩

/-- Closed instance of C5: a summarizer error dict aborts the run with
the re-raised message. -/
theorem c5_witness :
    (run_preparation_workflow ("u".data) none c5Env).1 =
      wfFail (summErrRaise (.pdict [(errorK, .pstr ("boom".data))])) ("u".data)
        (wfSessionId none c5Env) :=
  (c5_workflow_error_handling ("u".data) none c5Env).2.2.1
    (.pdict [(errorK, .pstr ("boom".data))]) rfl rfl

/-! ## Claim C8 -/

/-- C8: an `"error"` dict from the search agent does not fail the run —
the search result is replaced by `{}` and the workflow can still return
`"success": true` with `industry_faqs` serialised as `"{}"` — whereas an
error dict from the summarizer, the question generator, or the answer
generator always yields `"success": false`. -/
theorem c8_search_error_tolerated (userId : Str) (sidArg : Option Str)
    (env : WfEnv) :
    (∀ ps faqs0 qd ar, env.summ = .ok ps → errDictP ps = false →
      env.search = .ok faqs0 → errDictP faqs0 = true →
      env.qgen = .ok qd → errDictP qd = false →
      env.agen = .ok ar → errDictP ar = false → ar.isDict = true →
      (run_preparation_workflow userId sidArg env).1.getD successK .pnone =
        .pbool true ∧
      (run_preparation_workflow userId sidArg env).1.getD industryFaqsK .pnone =
        .pstr ['\x7b', '\x7d']) ∧
    (∀ ps, env.summ = .ok ps → errDictP ps = true →
      (run_preparation_workflow userId sidArg env).1.getD successK .pnone =
        .pbool false) ∧
    (∀ ps faqs0 qd, env.summ = .ok ps → errDictP ps = false →
      env.search = .ok faqs0 → env.qgen = .ok qd → errDictP qd = true →
      (run_preparation_workflow userId sidArg env).1.getD successK .pnone =
        .pbool false) ∧
    (∀ ps faqs0 qd ar, env.summ = .ok ps → errDictP ps = false →
      env.search = .ok faqs0 → env.qgen = .ok qd → errDictP qd = false →
      env.agen = .ok ar → errDictP ar = true →
      (run_preparation_workflow userId sidArg env).1.getD successK .pnone =
        .pbool false) := by
  refine ⟨?_, ?_, ?_, ?_⟩
  · intro ps faqs0 qd ar hs hne hse hfe hq hqe ha hae had
    obtain ⟨gen, summ, search, qgen, agen, timeVal⟩ := env
    cases hs
    cases hse
    cases hq
    cases ha
    unfold run_preparation_workflow
    dsimp only
    rw [if_neg (by rw [hne]; exact Bool.noConfusion),
      if_neg (by rw [hqe]; exact Bool.noConfusion),
      if_neg (by rw [hae]; exact Bool.noConfusion)]
    cases ar with
    | pdict akvs =>
      rw [if_pos hfe]
      exact ⟨rfl, rfl⟩
    | pnone => exact absurd had (by simp [PyVal.isDict])
    | pbool b => exact absurd had (by simp [PyVal.isDict])
    | pint n => exact absurd had (by simp [PyVal.isDict])
    | pstr s => exact absurd had (by simp [PyVal.isDict])
    | plist l => exact absurd had (by simp [PyVal.isDict])
  · intro ps hs herr
    rw [wf_fail_summ_errdict userId sidArg env ps hs herr]
    exact getD_wfFail_success' _ _ _
  · intro ps faqs0 qd hs hne hse hq herr
    rw [wf_fail_qgen_errdict userId sidArg env ps faqs0 qd hs hne hse hq herr]
    exact getD_wfFail_success' _ _ _
  · intro ps faqs0 qd ar hs hne hse hq hqe ha herr
    rw [wf_fail_agen_errdict userId sidArg env ps faqs0 qd ar hs hne hse hq
      hqe ha herr]
    exact getD_wfFail_success' _ _ _

/-- Closed instance of C8: with a failing search agent and all other
agents succeeding, the run succeeds and `industry_faqs` is `"{}"`. -/
theorem c8_witness :
    (run_preparation_workflow ("u".data) none c8Env).1.getD successK .pnone =
      .pbool true ∧
    (run_preparation_workflow ("u".data) none c8Env).1.getD industryFaqsK
      .pnone = .pstr ['\x7b', '\x7d'] :=
  (c8_search_error_tolerated ("u".data) none c8Env).1
    (.pdict [(titleK, .pstr ("T".data))])
    (.pdict [(errorK, .pstr ("search down".data))])
    (.plist []) (.pdict [(answersK, .plist [])])
    rfl rfl rfl rfl rfl rfl rfl rfl rfl

/-! ## Claim C2 (corrected) -/

/-- C2 (amended): each of the four preparation agents never propagates an
exception (their embeddings are total functions into `PyVal`, with every
Python `raise` point modelled and caught) and always returns either the
structure recovered by (primary or fallback) parsing — possibly `None`
when the recovered JSON is `null` — or a dictionary containing an
`"error"` key; the interview judge likewise never propagates an
exception, but on a reply that fails parsing or validation it returns
`None`, not an error dictionary. -/
theorem c2_agents_error_handling :
    (∀ (loads : Str → Option PyVal) (ff : Str → Option Str)
      (c1 c2 : Except Str Str),
      (summarizerRun loads ff c1 c2).hasKey errorK = true ∨
      (∃ t, c1 = .ok t ∧
        extract_json loads t = .ok (summarizerRun loads ff c1 c2)) ∨
      (∃ t, c2 = .ok t ∧
        summarizerRun loads ff c1 c2 = dictExtractJsonFallback ff loads t)) ∧
    (∀ (loads : Str → Option PyVal) (ff : Str → Option Str)
      (c1 c2 : Except Str Str),
      (searchRun loads ff c1 c2).hasKey errorK = true ∨
      (∃ t, c1 = .ok t ∧
        extract_json loads t = .ok (searchRun loads ff c1 c2)) ∨
      (∃ t, c2 = .ok t ∧
        searchRun loads ff c1 c2 = dictExtractJsonFallback ff loads t)) ∧
    (∀ (loads : Str → Option PyVal) (ff : Str → Option Str)
      (c1 c2 : Except Str Str),
      (questionGeneratorRun loads ff c1 c2).hasKey errorK = true ∨
      (∃ t j, c1 = .ok t ∧ extract_json loads t = .ok j ∧
        questionGeneratorRun loads ff c1 c2 = unwrapQuestions j) ∨
      (∃ t, c2 = .ok t ∧
        questionGeneratorRun loads ff c1 c2 =
          qgenExtractJsonFallback ff loads t)) ∧
    (∀ (loads : Str → Option PyVal) (ff : Str → Option Str) (qd : PyVal)
      (c1 c2 : Except Str Str),
      (answerGeneratorRun loads ff qd c1 c2).hasKey errorK = true ∨
      (∃ t j, c1 = .ok t ∧ extract_json loads t = .ok j ∧
        answerGeneratorRun loads ff qd c1 c2 =
          answerPostProcess (extractQuestionsList qd) j) ∨
      (∃ t, c2 = .ok t ∧
        answerGeneratorRun loads ff qd c1 c2 =
          answerExtractJsonFallback ff loads t (extractQuestionsList qd))) ∧
    (∀ (env : JudgeEnv) (t : Str), env.call = .ok t →
      (∀ p, parse_and_validate_feedback env.ff env.loads env.validate t ≠
        .valid p) →
      judgeRun env = .pnone) := by
  refine ⟨?_, ?_, ?_, ?_, ?_⟩
  · intro loads ff c1 c2
    cases c1 with
    | error e1 =>
      cases c2 with
      | ok t2 => exact Or.inr (Or.inr ⟨t2, rfl, rfl⟩)
      | error e2 => exact Or.inl rfl
    | ok t =>
      cases hx : extract_json loads t with
      | ok v =>
        have hrun : summarizerRun loads ff (.ok t) c2 = v := by
          unfold summarizerRun generateJsonAttempt
          dsimp only
          rw [hx]
        exact Or.inr (Or.inl ⟨t, rfl, by rw [hrun]; exact hx⟩)
      | error err =>
        have hg : generateJsonAttempt loads (.ok t) = .error ("ValueError".data) := by
          unfold generateJsonAttempt
          dsimp only
          rw [hx]
        cases c2 with
        | ok t2 =>
          refine Or.inr (Or.inr ⟨t2, rfl, ?_⟩)
          unfold summarizerRun
          rw [hg]
        | error e2 =>
          refine Or.inl ?_
          have : summarizerRun loads ff (.ok t) (.error e2) =
              agentErrDict summarizerPre e2 := by
            unfold summarizerRun
            rw [hg]
          rw [this]
          rfl
  · intro loads ff c1 c2
    cases c1 with
    | error e1 =>
      cases c2 with
      | ok t2 => exact Or.inr (Or.inr ⟨t2, rfl, rfl⟩)
      | error e2 => exact Or.inl rfl
    | ok t =>
      cases hx : extract_json loads t with
      | ok v =>
        have hrun : searchRun loads ff (.ok t) c2 = v := by
          unfold searchRun generateJsonAttempt
          dsimp only
          rw [hx]
        exact Or.inr (Or.inl ⟨t, rfl, by rw [hrun]; exact hx⟩)
      | error err =>
        have hg : generateJsonAttempt loads (.ok t) = .error ("ValueError".data) := by
          unfold generateJsonAttempt
          dsimp only
          rw [hx]
        cases c2 with
        | ok t2 =>
          refine Or.inr (Or.inr ⟨t2, rfl, ?_⟩)
          unfold searchRun
          rw [hg]
        | error e2 =>
          refine Or.inl ?_
          have : searchRun loads ff (.ok t) (.error e2) =
              agentErrDict searchPre e2 := by
            unfold searchRun
            rw [hg]
          rw [this]
          rfl
  · intro loads ff c1 c2
    cases c1 with
    | error e1 =>
      cases c2 with
      | ok t2 => exact Or.inr (Or.inr ⟨t2, rfl, rfl⟩)
      | error e2 => exact Or.inl rfl
    | ok t =>
      cases hx : extract_json loads t with
      | ok v =>
        have hrun : questionGeneratorRun loads ff (.ok t) c2 =
            unwrapQuestions v := by
          unfold questionGeneratorRun generateJsonAttempt
          dsimp only
          rw [hx]
        exact Or.inr (Or.inl ⟨t, v, rfl, hx, hrun⟩)
      | error err =>
        have hg : generateJsonAttempt loads (.ok t) = .error ("ValueError".data) := by
          unfold generateJsonAttempt
          dsimp only
          rw [hx]
        cases c2 with
        | ok t2 =>
          refine Or.inr (Or.inr ⟨t2, rfl, ?_⟩)
          unfold questionGeneratorRun
          rw [hg]
        | error e2 =>
          refine Or.inl ?_
          have : questionGeneratorRun loads ff (.ok t) (.error e2) =
              agentErrDict qgenPre e2 := by
            unfold questionGeneratorRun
            rw [hg]
          rw [this]
          rfl
  · intro loads ff qd c1 c2
    by_cases hq : (extractQuestionsList qd).isEmpty = true
    · refine Or.inl ?_
      have : answerGeneratorRun loads ff qd c1 c2 = noQuestionsErrDict qd := by
        unfold answerGeneratorRun
        rw [if_pos hq]
      rw [this]
      rfl
    · have hq' : (extractQuestionsList qd).isEmpty = false := by simpa using hq
      cases c1 with
      | error e1 =>
        cases c2 with
        | ok t2 =>
          refine Or.inr (Or.inr ⟨t2, rfl, ?_⟩)
          unfold answerGeneratorRun
          rw [if_neg (by rw [hq']; exact Bool.noConfusion)]
          rfl
        | error e2 =>
          refine Or.inl ?_
          have : answerGeneratorRun loads ff qd (.error e1) (.error e2) =
              agentErrDict agenPre e2 := by
            unfold answerGeneratorRun
            rw [if_neg (by rw [hq']; exact Bool.noConfusion)]
            rfl
          rw [this]
          rfl
      | ok t =>
        cases hx : extract_json loads t with
        | ok v =>
          refine Or.inr (Or.inl ⟨t, v, rfl, hx, ?_⟩)
          unfold answerGeneratorRun generateJsonAttempt
          dsimp only
          rw [if_neg (by rw [hq']; exact Bool.noConfusion), hx]
        | error err =>
          have hg : generateJsonAttempt loads (.ok t) =
              .error ("ValueError".data) := by
            unfold generateJsonAttempt
            dsimp only
            rw [hx]
          cases c2 with
          | ok t2 =>
            refine Or.inr (Or.inr ⟨t2, rfl, ?_⟩)
            unfold answerGeneratorRun
            rw [if_neg (by rw [hq']; exact Bool.noConfusion), hg]
          | error e2 =>
            refine Or.inl ?_
            have : answerGeneratorRun loads ff qd (.ok t) (.error e2) =
                agentErrDict agenPre e2 := by
              unfold answerGeneratorRun
              rw [if_neg (by rw [hq']; exact Bool.noConfusion), hg]
            rw [this]
            rfl
  · intro env t hc hnv
    have hb : judgeBody env = .ok .pnone := by
      unfold judgeBody
      rw [hc]
      dsimp only
      cases hp : parse_and_validate_feedback env.ff env.loads env.validate t with
      | valid p => exact absurd hp (hnv p)
      | invalid => rfl
      | errorS => rfl
    unfold judgeRun
    rw [hb]

/-- Counterexample to C2 as stated: on replies that are not clean JSON,
the judge returns `None` when parsing fails, and a preparation agent
returns `None` when the fallback-recovered JSON is `null` — so "never
returns None" fails. -/
theorem c2_counterexample :
    c2jEnv.loads ("x".data) = none ∧
    judgeRun c2jEnv = PyVal.pnone ∧
    c2sLoads c2sRep2 = none ∧
    summarizerRun c2sLoads c2sFf (.ok c2sRep1) (.ok c2sRep2) = PyVal.pnone :=
  ⟨rfl, rfl, rfl, rfl⟩

/-- Closed instance of the amended C2: the judge on an unparseable reply
returns `None` (derived through the judge conjunct of the theorem). -/
theorem c2_witness : judgeRun c2jEnv = PyVal.pnone := by
  refine c2_agents_error_handling.2.2.2.2 c2jEnv ("x".data) rfl ?_
  intro p hp
  rw [show parse_and_validate_feedback c2jEnv.ff c2jEnv.loads c2jEnv.validate
    ("x".data) = FeedbackStatus.errorS from rfl] at hp
  exact FeedbackStatus.noConfusion hp

/-- The single-question recheck of `extractQuestionsList`: a dict whose
matched key holds an empty list but which carries a `question` key is
re-admitted whole (`questions_list = [questions_data]`), so the answer
generator proceeds to the model call there instead of returning the
no-questions error dict. -/
theorem extractQuestionsList_recheck :
    extractQuestionsList (.pdict [(questionsK, .plist []),
        (questionK, .pstr ("x".data))]) =
      [.pdict [(questionsK, .plist []), (questionK, .pstr ("x".data))]] ∧
    (extractQuestionsList (.pdict [(questionsK, .plist []),
        (questionK, .pstr ("x".data))])).isEmpty = false :=
  ⟨rfl, rfl⟩
